import Mathlib

/-!
# Order-ingestion pipeline (module l0): shallow embedding and verification

Embedded packages:

* `internal/domain`  : `Delivery`, `Items`, `Payment`, `Order`
* `pkg/e`            : `ErrNotFound`, `Wrap`
* `internal/storage/redis`    : `Redis.Get`, `Redis.Set`
* `internal/storage/postgres` : `Postgres.Create`, `Postgres.GetByID`
* `internal/kafka`   : the retry loop, `consumePartition` and `Consume`
* `internal/service` : `Service.CreateOrder`
* `internal/handler` : `Handler.GetOrderByID`, `Handler.CreateOrder`
* the `validate` tags of `internal/domain` : `Struct`

External collaborators (PostgreSQL behind pgx, Redis, the broker and the
`encoding/json` library) are state that is passed explicitly, together with
an explicit description of what the environment answers on each call (driver
failures, cache failures, cancellation). The validator library is embedded
tag by tag, its `email` expression excepted, which is a parameter.
-/

namespace L0

/-! ## internal/domain/entities.go -/

/-- The struct `domain.Delivery`. -/
structure Delivery where
  Name : String
  Phone : String
  Zip : String
  City : String
  Address : String
  Region : String
  Email : String
deriving DecidableEq, Repr

/-- The struct `domain.Items`. Go `int` fields are integers. -/
structure Items where
  ChrtID : Int
  Price : Int
  Rid : String
  Name : String
  Sale : Int
  Size : String
  TotalPrice : Int
  NmID : Int
  Brand : String
deriving DecidableEq, Repr

/-- The struct `domain.Payment`. -/
structure Payment where
  Transaction : String
  Currency : String
  Provider : String
  Amount : Int
  PaymentDt : Int
  Bank : String
  DeliveryCost : Int
  GoodsTotal : Int
deriving DecidableEq, Repr

/-- The struct `domain.Order`. The slice `Items` is a list (a nil slice and an
empty slice are both the empty list). -/
structure Order where
  OrderUID : String
  Entry : String
  InternalSignature : String
  Payment : Payment
  Items : List Items
  Locale : String
  CustomerID : String
  TrackNumber : String
  DeliveryService : String
  Shardkey : String
  SmID : Int
  Delivery : Delivery
deriving DecidableEq, Repr

/-- The zero value `domain.Delivery{}`. -/
def Delivery.zero : Delivery := ⟨"", "", "", "", "", "", ""⟩

/-- The zero value `domain.Payment{}`. -/
def Payment.zero : Payment := ⟨"", "", "", 0, 0, "", 0, 0⟩

/-- The zero value `domain.Order{}` (also the value of `var o domain.Order`). -/
def Order.zero : Order :=
  ⟨"", "", "", Payment.zero, [], "", "", "", "", "", 0, Delivery.zero⟩

/-! ## pkg/e/e.go and the error values of the libraries -/

/-- Go `error` values that occur in the pipeline.
`ErrNotFound` is the sentinel `e.ErrNotFound`, `ErrNoRows` stands for the
driver error for which `errors.Is(err, sql.ErrNoRows)` holds, `other` is any
other leaf error (identified by its text) and `wrap` is the result of
`fmt.Errorf("%s: %w", message, err)`. -/
inductive GoError where
  | ErrNotFound
  | ErrNoRows
  | other (text : String)
  | wrap (message : String) (cause : GoError)
deriving DecidableEq, Repr

/-- The sentinel `var ErrNotFound = errors.New("order not found")`. -/
def ErrNotFound : GoError := GoError.ErrNotFound

/-- The function `e.Wrap`: `fmt.Errorf("%s: %w", message, err)`. -/
def Wrap (message : String) (err : GoError) : GoError := GoError.wrap message err

/-- The method `Error()` of an error value. -/
def GoError.Error : GoError → String
  | .ErrNotFound => "order not found"
  | .ErrNoRows => "sql: no rows in result set"
  | .other text => text
  | .wrap message cause => message ++ ": " ++ cause.Error

/-- The function `errors.Is`: walks the `Unwrap` chain of `err` looking for
`target`. -/
def GoError.Is : GoError → GoError → Bool
  | .wrap message cause, target =>
      decide (GoError.wrap message cause = target) || GoError.Is cause target
  | err, target => decide (err = target)

/-! ## internal/storage/redis/redis.go -/

/-- The bytes stored under a Redis key, described by what `json.Unmarshal`
makes of them. `json o` are the bytes `json.Marshal(o)`: unmarshalling them
stores `o` in the destination. `malformed dest text` are bytes on which
`json.Unmarshal` fails with an error of text `text`, after having changed a
zero destination into `dest`. -/
inductive Payload where
  | json (o : Order)
  | malformed (dest : Order) (text : String)
deriving DecidableEq, Repr

/-- One key of the cache with its expiry instant (nanoseconds). -/
structure Entry where
  key : String
  value : Payload
  expireAt : Int
deriving DecidableEq, Repr

/-- The state of the Redis server behind `Redis.client`. -/
structure Redis where
  entries : List Entry
deriving DecidableEq, Repr

/-- The value the server holds for `key` at instant `now`, if it has not
expired. -/
def Redis.lookup (r : Redis) (now : Int) (key : String) : Option Payload :=
  match r.entries.find? (fun e => decide (e.key = key)) with
  | some e => if now < e.expireAt then some e.value else none
  | none => none

/-- The method `Redis.Get`. `fault` is the transport error of
`r.client.Get(ctx, key).Result()` on this call, if any; `value` is the
destination before the call. Returns the destination after the call and the
error (the raw string result is not modelled). -/
def Redis.Get (r : Redis) (now : Int) (fault : Option GoError) (key : String)
    (value : Order) : Order × Option GoError :=
  match fault with
  | some err => (value, some (GoError.other ("just errror " ++ err.Error)))
  | none =>
    match r.lookup now key with
    | none => (value, some (GoError.other "the requested key is not found: redis: nil"))
    | some (Payload.malformed dest text) =>
        (dest, some (GoError.other ("could not unmarshal(cache): " ++ text)))
    | some (Payload.json o) => (o, none)

/-- The method `Redis.Set` applied to an Order (for which `json.Marshal` cannot
fail). `fault` is the error of `r.client.Set(...)` on this call, if any; `exp`
is the expiry in nanoseconds. -/
def Redis.Set (r : Redis) (now : Int) (fault : Option GoError) (key : String)
    (value : Order) (exp : Int) : Redis × Option GoError :=
  match fault with
  | some err => (r, some err)
  | none =>
    (⟨⟨key, Payload.json value, now + exp⟩ ::
        r.entries.filter (fun e => !decide (e.key = key))⟩, none)

/-! ## The relational store behind `Postgres.pool`

The schema is not part of the sources; the tables and columns are the ones
named by the SQL text of `pg.go`. Every table has a generated `id` column fed
by its own sequence, and a sequence value handed out inside a transaction is
not given back when the transaction rolls back (PostgreSQL sequences are not
transactional). Rows come back in insertion order. -/

/-- A row of table `orders` (without its generated id). -/
structure OrderRow where
  OrderUID : String
  Entry : String
  InternalSignature : String
  payment_id_fk : Int
  Locale : String
  CustomerID : String
  TrackNumber : String
  DeliveryService : String
  Shardkey : String
  SmID : Int
deriving DecidableEq, Repr

/-- Modelled from the spec: the table declarations (the schema) are not among
the sources; section 3 of the spec and the SQL text of `pg.go` give an
`orders` table that refers to one `payment` row by foreign key, a `delivery`
table, an `items` table and the associative table `order_items`. The first
component of a row is its id, and `order_items` holds pairs
`(order_id_fk, item_id_fk)`. -/
structure Tables where
  items : List (Int × Items)
  payment : List (Int × Payment)
  delivery : List (Int × Delivery)
  orders : List (Int × OrderRow)
  order_items : List (Int × Int)
deriving DecidableEq, Repr

/-- Modelled from the spec: the declaration of the generated `id` columns is
not among the sources; each of the four tables read by id has its own
sequence, of which this is the next value. -/
structure Sequences where
  items : Int
  payment : Int
  delivery : Int
  orders : Int
deriving DecidableEq, Repr

/-- A statement sent to the server, with its arguments. -/
inductive Query where
  | begin
  | commit
  | rollback
  | insertItem (item : Items)
  | insertPayment (payment : Payment)
  | insertDelivery (delivery : Delivery)
  | insertOrder (row : OrderRow)
  | insertOrderItem (order_id_fk : Int) (item_id_fk : Int)
  | selectOrder (id : Int)
  | selectDelivery (id : Int)
  | selectPayment (id : Int)
  | selectItemIDs (order_id_fk : Int)
  | selectItem (id : Int)
deriving DecidableEq, Repr

/-- What the server answered to a statement. -/
inductive Reply where
  | ok
  | returning (id : Int)
  | failed
deriving DecidableEq, Repr

/-- One statement received by the server together with its answer. -/
structure Call where
  query : Query
  reply : Reply
deriving DecidableEq, Repr

/-- The state of the PostgreSQL server: committed rows, sequences, and the
record of every statement it has received. -/
structure Store where
  committed : Tables
  seqs : Sequences
  log : List Call
deriving DecidableEq, Repr

/-- An open transaction (`pgx.Tx`): its working copy of the rows, the
sequences and the statement record. -/
structure Tx where
  work : Tables
  seqs : Sequences
  log : List Call
deriving DecidableEq, Repr

/-- Appends a statement and its answer to the record. -/
def Tx.record (tx : Tx) (q : Query) (r : Reply) : Tx :=
  { tx with log := tx.log ++ [⟨q, r⟩] }

/-- A successful `pool.Begin`. -/
def Store.beginTx (s : Store) : Tx :=
  ⟨s.committed, s.seqs, s.log ++ [⟨Query.begin, Reply.ok⟩]⟩

/-- A `pool.Begin` that fails. -/
def Store.beginFailed (s : Store) : Store :=
  { s with log := s.log ++ [⟨Query.begin, Reply.failed⟩] }

/-- A successful `tx.Commit`: the working copy becomes the committed state. -/
def Tx.commit (tx : Tx) : Store :=
  ⟨tx.work, tx.seqs, tx.log ++ [⟨Query.commit, Reply.ok⟩]⟩

/-- The deferred `tx.Rollback` of a transaction that was not committed: the
committed rows of `s` stay, the sequences keep their advance. -/
def Tx.rollback (s : Store) (tx : Tx) : Store :=
  ⟨s.committed, tx.seqs, tx.log ++ [⟨Query.rollback, Reply.ok⟩]⟩

/-- The row with the given id (`WHERE id = $1`). -/
def lookupRow {α : Type} (rows : List (Int × α)) (id : Int) : Option α :=
  (rows.find? (fun r => decide (r.1 = id))).map Prod.snd

/-- The method `QueryRow(...).Scan(...)` of a select by id: `fault` is the
driver error on this call, if any; a missing row is the no-rows error. -/
def Tx.queryRow {α : Type} (tx : Tx) (fault : Option GoError) (q : Query)
    (row : Option α) : Tx × Except GoError α :=
  match fault with
  | some err => (tx.record q Reply.failed, Except.error err)
  | none =>
    match row with
    | none => (tx.record q Reply.ok, Except.error GoError.ErrNoRows)
    | some a => (tx.record q Reply.ok, Except.ok a)

/-! ## internal/storage/postgres/pg.go: Create -/

/-- The places of `Postgres.Create` at which the driver can return an error:
`insertItem i` is the insert of the i-th item (from 0), `insertOrderItem i`
the i-th association insert. -/
inductive WriteStep where
  | begin
  | insertItem (i : Nat)
  | insertPayment
  | insertDelivery
  | insertOrder
  | insertOrderItem (i : Nat)
  | commit
deriving DecidableEq, Repr

/-- The statement `INSERT INTO items ... RETURNING id`. -/
def Tx.insertItem (tx : Tx) (item : Items) : Tx × Int :=
  ({ work := { tx.work with items := tx.work.items ++ [(tx.seqs.items, item)] },
     seqs := { tx.seqs with items := tx.seqs.items + 1 },
     log := tx.log ++ [⟨Query.insertItem item, Reply.returning tx.seqs.items⟩] },
   tx.seqs.items)

/-- The statement `INSERT INTO payment ... RETURNING id`. -/
def Tx.insertPayment (tx : Tx) (p : Payment) : Tx × Int :=
  ({ work := { tx.work with payment := tx.work.payment ++ [(tx.seqs.payment, p)] },
     seqs := { tx.seqs with payment := tx.seqs.payment + 1 },
     log := tx.log ++ [⟨Query.insertPayment p, Reply.returning tx.seqs.payment⟩] },
   tx.seqs.payment)

/-- The statement `INSERT INTO delivery ...` (no id is returned). -/
def Tx.insertDelivery (tx : Tx) (d : Delivery) : Tx :=
  { work := { tx.work with delivery := tx.work.delivery ++ [(tx.seqs.delivery, d)] },
    seqs := { tx.seqs with delivery := tx.seqs.delivery + 1 },
    log := tx.log ++ [⟨Query.insertDelivery d, Reply.ok⟩] }

/-- The statement `INSERT INTO orders ... RETURNING id`. -/
def Tx.insertOrder (tx : Tx) (row : OrderRow) : Tx × Int :=
  ({ work := { tx.work with orders := tx.work.orders ++ [(tx.seqs.orders, row)] },
     seqs := { tx.seqs with orders := tx.seqs.orders + 1 },
     log := tx.log ++ [⟨Query.insertOrder row, Reply.returning tx.seqs.orders⟩] },
   tx.seqs.orders)

/-- The statement `INSERT INTO order_items (order_id_fk, item_id_fk)`. -/
def Tx.insertOrderItem (tx : Tx) (orderId itemId : Int) : Tx :=
  { work := { tx.work with order_items := tx.work.order_items ++ [(orderId, itemId)] },
    seqs := tx.seqs,
    log := tx.log ++ [⟨Query.insertOrderItem orderId itemId, Reply.ok⟩] }

/-- The header row that `Create` sends for an order and a payment id. -/
def Order.header (o : Order) (paymentIdFk : Int) : OrderRow :=
  ⟨o.OrderUID, o.Entry, o.InternalSignature, paymentIdFk, o.Locale, o.CustomerID,
   o.TrackNumber, o.DeliveryService, o.Shardkey, o.SmID⟩

/-- The loop `for _, item := range o.Items` of `Create`: `i` is the index of
the head of the remaining items, `itemsIds` the ids collected so far. -/
def Create.insertItems (faults : WriteStep → Option GoError) :
    List Items → Nat → Tx → List Int → Tx × Except GoError (List Int)
  | [], _, tx, itemsIds => (tx, Except.ok itemsIds)
  | item :: rest, i, tx, itemsIds =>
    match faults (WriteStep.insertItem i) with
    | some err =>
        (tx.record (Query.insertItem item) Reply.failed,
         Except.error (Wrap "storage.pg.CreateOrder1" err))
    | none =>
        Create.insertItems faults rest (i + 1) (tx.insertItem item).1
          (itemsIds ++ [(tx.insertItem item).2])

/-- The loop `for _, itemId := range itemsIds` of `Create`. -/
def Create.insertOrderItems (faults : WriteStep → Option GoError) (orderIdFk : Int) :
    List Int → Nat → Tx → Tx × Option GoError
  | [], _, tx => (tx, none)
  | itemId :: rest, i, tx =>
    match faults (WriteStep.insertOrderItem i) with
    | some err =>
        (tx.record (Query.insertOrderItem orderIdFk itemId) Reply.failed,
         some (Wrap "storage.pg.CreateOrder" err))
    | none =>
        Create.insertOrderItems faults orderIdFk rest (i + 1)
          (tx.insertOrderItem orderIdFk itemId)

/-- The statements of `Create` between `Begin` and the return: the transaction
at the moment of the return, the returned id and the returned error. A
`none` error means that `Commit` remains to be applied to the transaction. -/
def Create.body (faults : WriteStep → Option GoError) (o : Order) (tx : Tx) :
    Tx × Int × Option GoError :=
  match Create.insertItems faults o.Items 0 tx [] with
  | (tx1, Except.error err) => (tx1, 0, some err)
  | (tx1, Except.ok itemsIds) =>
    match faults WriteStep.insertPayment with
    | some err =>
        (tx1.record (Query.insertPayment o.Payment) Reply.failed, 0,
         some (Wrap "storage.pg.CreateOrder" err))
    | none =>
      let paymentIdFk := (tx1.insertPayment o.Payment).2
      let tx2 := (tx1.insertPayment o.Payment).1
      match faults WriteStep.insertDelivery with
      | some err =>
          (tx2.record (Query.insertDelivery o.Delivery) Reply.failed, 0,
           some (Wrap "storage.pg.CreateOrder" err))
      | none =>
        let tx3 := tx2.insertDelivery o.Delivery
        match faults WriteStep.insertOrder with
        | some err =>
            (tx3.record (Query.insertOrder (o.header paymentIdFk)) Reply.failed, 0,
             some (Wrap "storage.pg.CreateOrder" err))
        | none =>
          let orderIdFk := (tx3.insertOrder (o.header paymentIdFk)).2
          let tx4 := (tx3.insertOrder (o.header paymentIdFk)).1
          match Create.insertOrderItems faults orderIdFk itemsIds 0 tx4 with
          | (tx5, some err) => (tx5, 0, some err)
          | (tx5, none) =>
            match faults WriteStep.commit with
            | some err =>
                (tx5.record Query.commit Reply.failed, 0,
                 some (Wrap "storage.pg.CreateOrder.Commit" err))
            | none => (tx5, orderIdFk, none)

/-- The method `Postgres.Create`: `faults` tells on which step, if any, the
driver returns an error during this call. The result is the state of the
server after the call (the deferred rollback included), the returned id and
the returned error. -/
def Postgres.Create (s : Store) (faults : WriteStep → Option GoError) (o : Order) :
    Store × Int × Option GoError :=
  match faults WriteStep.begin with
  | some err => (s.beginFailed, 0, some (Wrap "storage.pg.CreateOrder.Begin" err))
  | none =>
    match Create.body faults o s.beginTx with
    | (tx, id, none) => (tx.commit, id, none)
    | (tx, id, some err) => (tx.rollback s, id, some err)

/-! ## internal/storage/postgres/pg.go: GetByID -/

/-- The places of `Postgres.GetByID` at which the driver can return an error:
`scan i` is `rowsItems.Scan` on the i-th id row, `item i` the select of the
i-th item. -/
inductive ReadStep where
  | begin
  | order
  | delivery
  | payment
  | itemsID
  | scan (i : Nat)
  | rowsErr
  | item (i : Nat)
  | commit
deriving DecidableEq, Repr

/-- What the environment answers during one call of `GetByID`: the instant of
the call, the transport error of the cache read, the driver errors, and the
transport error of the cache write. -/
structure ReadEnv where
  now : Int
  cacheGet : Option GoError
  faults : ReadStep → Option GoError
  cacheSet : Option GoError

/-- The key `fmt.Sprintf("order: %v", id)`. -/
def cacheKey (id : Int) : String := "order: " ++ toString id

/-- The expiry `time.Minute*5` in nanoseconds. -/
def cacheTTL : Int := 5 * 60 * 1000000000

/-- The assignment of the scanned header columns to `o`. -/
def Order.setHeader (o : Order) (row : OrderRow) : Order :=
  { o with
    OrderUID := row.OrderUID, Entry := row.Entry,
    InternalSignature := row.InternalSignature, Locale := row.Locale,
    CustomerID := row.CustomerID, TrackNumber := row.TrackNumber,
    DeliveryService := row.DeliveryService, Shardkey := row.Shardkey,
    SmID := row.SmID }

/-- The ids `SELECT item_id_fk FROM order_items WHERE order_id_fk = $1`. -/
def selectItemIDs (t : Tables) (id : Int) : List Int :=
  (t.order_items.filter (fun r => decide (r.1 = id))).map Prod.snd

/-- The loop `for rowsItems.Next()`: scans the id rows one by one; a scan
error ends the call. -/
def GetByID.scanItemIDs (faults : ReadStep → Option GoError) :
    List Int → Nat → List Int → Except GoError (List Int)
  | [], _, itemIDs => Except.ok itemIDs
  | itemID :: rest, i, itemIDs =>
    match faults (ReadStep.scan i) with
    | some err => Except.error (Wrap "storage.pg.GetByUID.RowsItems.Next()" err)
    | none => GetByID.scanItemIDs faults rest (i + 1) (itemIDs ++ [itemID])

/-- The loop `for _, itemID := range itemIDs`: reads the items one by one and
appends them to `o.Items`. -/
def GetByID.readItems (faults : ReadStep → Option GoError) :
    List Int → Nat → Tx → Order → Tx × Order × Option GoError
  | [], _, tx, o => (tx, o, none)
  | itemID :: rest, i, tx, o =>
    match tx.queryRow (faults (ReadStep.item i)) (Query.selectItem itemID)
        (lookupRow tx.work.items itemID) with
    | (tx1, Except.error err) =>
        if err.Is GoError.ErrNoRows then (tx1, Order.zero, some ErrNotFound)
        else (tx1, o, some (Wrap "storage.pg.GetByUID.Items" err))
    | (tx1, Except.ok item) =>
        GetByID.readItems faults rest (i + 1) tx1 { o with Items := o.Items ++ [item] }

/-- The statements of `GetByID` between `Begin` and `Commit`, starting from
the value `o` left by the cache read: the transaction at the moment of the
return, the returned Order and the returned error. A `none` error means that
`Commit` remains to be applied. -/
def GetByID.body (faults : ReadStep → Option GoError) (id : Int) (o : Order) (tx : Tx) :
    Tx × Order × Option GoError :=
  match tx.queryRow (faults ReadStep.order) (Query.selectOrder id)
      (lookupRow tx.work.orders id) with
  | (tx1, Except.error err) =>
      if err.Is GoError.ErrNoRows then (tx1, Order.zero, some ErrNotFound)
      else (tx1, o, some (Wrap "storage.pg.GetByUID.Order" err))
  | (tx1, Except.ok row) =>
    let o1 := o.setHeader row
    let payment_id_fk := row.payment_id_fk
    match tx1.queryRow (faults ReadStep.delivery) (Query.selectDelivery id)
        (lookupRow tx1.work.delivery id) with
    | (tx2, Except.error err) =>
        if err.Is GoError.ErrNoRows then (tx2, Order.zero, some ErrNotFound)
        else (tx2, o1, some (Wrap "storage.pg.GetByUID.Delivery" err))
    | (tx2, Except.ok delivery) =>
      let o2 := { o1 with Delivery := delivery }
      match tx2.queryRow (faults ReadStep.payment) (Query.selectPayment payment_id_fk)
          (lookupRow tx2.work.payment payment_id_fk) with
      | (tx3, Except.error err) =>
          if err.Is GoError.ErrNoRows then (tx3, Order.zero, some ErrNotFound)
          else (tx3, o2, some (Wrap "storage.pg.GetByUID.Payment" err))
      | (tx3, Except.ok payment) =>
        let o3 := { o2 with Payment := payment }
        match faults ReadStep.itemsID with
        | some err =>
            if err.Is GoError.ErrNoRows then
              (tx3.record (Query.selectItemIDs id) Reply.failed, Order.zero, some ErrNotFound)
            else
              (tx3.record (Query.selectItemIDs id) Reply.failed, o3,
               some (Wrap "storage.pg.GetByUID.ItemsID" err))
        | none =>
          let tx4 := tx3.record (Query.selectItemIDs id) Reply.ok
          match GetByID.scanItemIDs faults (selectItemIDs tx4.work id) 0 [] with
          | Except.error err => (tx4, o3, some err)
          | Except.ok itemIDs =>
            match faults ReadStep.rowsErr with
            | some err => (tx4, Order.zero, some (Wrap "storage.pg.GetByUID.Rows.Err()" err))
            | none =>
              match GetByID.readItems faults itemIDs 0 tx4 o3 with
              | (tx5, o4, some err) => (tx5, o4, some err)
              | (tx5, o4, none) =>
                match faults ReadStep.commit with
                | some err =>
                    (tx5.record Query.commit Reply.failed, Order.zero,
                     some (Wrap "storage.pg.GetByUID.Commit" err))
                | none => (tx5, o4, none)

/-- The method `Postgres.GetByID`. The result is the state of the server and
of the cache after the call, the returned Order and the returned error. -/
def Postgres.GetByID (s : Store) (r : Redis) (env : ReadEnv) (id : Int) :
    (Store × Redis) × Order × Option GoError :=
  match Redis.Get r env.now env.cacheGet (cacheKey id) Order.zero with
  | (o, none) => ((s, r), o, none)
  | (o, some _) =>
    match env.faults ReadStep.begin with
    | some err => ((s.beginFailed, r), Order.zero, some (Wrap "storage.pg.GetByUID.Begin" err))
    | none =>
      match GetByID.body env.faults id o s.beginTx with
      | (tx, o1, some err) => ((tx.rollback s, r), o1, some err)
      | (tx, o1, none) =>
          ((tx.commit, (Redis.Set r env.now env.cacheSet (cacheKey id) o1 cacheTTL).1), o1, none)

/-! ## internal/config/config.go and internal/kafka/consumer.go -/

/-- The fields of `config.KafkaConfig` read by the partition worker.
`InitialBackoff` is a `time.Duration` (int64 nanoseconds), `MaxRetries` a Go
`int`; `LoadConfig` accepts any parsable value for both, negative ones
included. -/
structure KafkaConfig where
  InitialBackoff : Int
  MaxRetries : Int
deriving DecidableEq, Repr

/-- The value of an integer expression reduced to the signed 64-bit range. -/
def wrapInt64 (x : Int) : Int := (x + 2 ^ 63) % 2 ^ 64 - 2 ^ 63

/-- The expression `time.Duration(1<<attempt)` for a non-negative `attempt`:
the constant 1 takes the type int64, and a shift by 64 or more gives 0. -/
def shiftLeftOne (attempt : Int) : Int :=
  if attempt < 64 then wrapInt64 (2 ^ attempt.toNat) else 0

/-- The expression `kc.cfg.Kafka.InitialBackoff * time.Duration(1<<attempt)`
in int64 arithmetic. -/
def backoff (InitialBackoff attempt : Int) : Int :=
  wrapInt64 (InitialBackoff * shiftLeftOne attempt)

/-- The payload `msg.Value` of a broker message. -/
abbrev Bytes := List Nat

/-- What one pass of the outer `select` of `consumePartition` receives.
For `error`, `sent` tells which case of the inner `select` is taken: the send
on `kc.errChan` (true) or `ctx.Done()` (false). -/
inductive Recv where
  | message (value : Bytes)
  | messagesClosed
  | error (err : GoError) (sent : Bool)
  | errorsClosed
  | ctxDone
deriving DecidableEq, Repr

/-- The collaborators of one partition worker: `unmarshal` is
`json.Unmarshal(msg.Value, &order)` (`none` when it returns an error),
`validate` is `kc.validator.Struct(order)`, `CreateOrder n order` is the error
returned by `kc.orderService.CreateOrder` on the call number `n` of this
worker (from 0), `cancelled n` tells whether `ctx.Done()` wins the `select` of
the backoff wait number `n` of this worker (from 0), `close` is the result of
`pc.Close()`. -/
structure WorkerEnv where
  unmarshal : Bytes → Option Order
  validate : Order → Option GoError
  CreateOrder : Nat → Order → Option GoError
  cancelled : Nat → Bool
  close : Option GoError

/-- The observable state of one partition worker: the arguments of its
`CreateOrder` calls, the durations given to `time.After`, the shared error
list `*errs`, the buffered channel `kc.errChan`, whether `pc.Close()` was
called and whether `consumePartition` has returned. -/
structure Worker where
  calls : List Order
  waits : List Int
  errs : List GoError
  errChan : List GoError
  closed : Bool
  returned : Bool
deriving DecidableEq, Repr

/-- The capacity of `kc.errChan`: `make(chan error, 10)`. -/
def errChanCap : Nat := 10

/-- The deferred calls that run when `consumePartition` returns: `pc.Close()`
(its error is appended to `*errs`) and `kc.wg.Done()`. -/
def Worker.finish (close : Option GoError) (w : Worker) : Worker :=
  { w with
    closed := true,
    errs := match close with
      | some err => w.errs ++ [err]
      | none => w.errs,
    returned := true }

/-- How the retry loop ends: by leaving the `for` (with the value of
`procErr`) or by the `return` taken on cancellation during the backoff. -/
inductive LoopExit where
  | completed (procErr : Option GoError)
  | cancelled
deriving DecidableEq, Repr

/-- The loop `for attempt := 0; attempt <= kc.cfg.Kafka.MaxRetries; attempt++`.
The first argument is the number of iterations that remain at most; the loop
is started with `(MaxRetries + 1).toNat`, which the guard never outlives
(`attempt` stays below 2^63 for every `MaxRetries` below 2^63 - 1). -/
def retryLoop (cfg : KafkaConfig) (env : WorkerEnv) (order : Order) :
    Nat → Int → Option GoError → Worker → Worker × LoopExit
  | 0, _, procErr, w => (w, LoopExit.completed procErr)
  | n + 1, attempt, procErr, w =>
    if attempt ≤ cfg.MaxRetries then
      match env.CreateOrder w.calls.length order with
      | none => ({ w with calls := w.calls ++ [order] }, LoopExit.completed none)
      | some err =>
        if attempt < cfg.MaxRetries then
          if env.cancelled w.waits.length then
            ({ w with calls := w.calls ++ [order],
                      waits := w.waits ++ [backoff cfg.InitialBackoff attempt] },
             LoopExit.cancelled)
          else
            retryLoop cfg env order n (attempt + 1) (some err)
              { w with calls := w.calls ++ [order],
                       waits := w.waits ++ [backoff cfg.InitialBackoff attempt] }
        else
          retryLoop cfg env order n (attempt + 1) (some err)
            { w with calls := w.calls ++ [order] }
    else (w, LoopExit.completed procErr)

/-- The statement `if procErr != nil` after the retry loop. -/
def Worker.recordErr (w : Worker) : Option GoError → Worker
  | some err => { w with errs := w.errs ++ [err] }
  | none => w

/-- The method `KafkaConsumer.consumePartition` run against the sequence of
what its outer `select` receives. When the sequence is used up the worker is
waiting in the `select` and has not returned; a send on a full `kc.errChan`
leaves it waiting in the inner `select`. -/
def consumePartition (cfg : KafkaConfig) (env : WorkerEnv) : List Recv → Worker → Worker
  | [], w => w
  | Recv.messagesClosed :: _, w => w.finish env.close
  | Recv.errorsClosed :: _, w => w.finish env.close
  | Recv.ctxDone :: _, w => w.finish env.close
  | Recv.error err sent :: rest, w =>
    if sent then
      if w.errChan.length < errChanCap then
        consumePartition cfg env rest
          { w with errs := w.errs ++ [err],
                   errChan := w.errChan ++ [GoError.wrap "partition consumer error" err] }
      else { w with errs := w.errs ++ [err] }
    else Worker.finish env.close { w with errs := w.errs ++ [err] }
  | Recv.message value :: rest, w =>
    match env.unmarshal value with
    | none => consumePartition cfg env rest w
    | some order =>
      match env.validate order with
      | some _ => consumePartition cfg env rest w
      | none =>
        match retryLoop cfg env order (cfg.MaxRetries + 1).toNat 0 none w with
        | (w1, LoopExit.cancelled) => w1.finish env.close
        | (w1, LoopExit.completed procErr) =>
            consumePartition cfg env rest (w1.recordErr procErr)

/-! ## Auxiliary definitions and sample data -/

/-- A valid order (the usual test message of the service). -/
def sampleOrder : Order :=
  { OrderUID := "b563feb7b2b84b6test", Entry := "WBIL", InternalSignature := "",
    Payment := ⟨"b563feb7b2b84b6test", "USD", "wbpay", 1817, 1637907727, "alpha", 1500, 317⟩,
    Items := [⟨9934930, 453, "ab4219087a764ae0btest", "Mascaras", 30, "0", 317, 2389212,
      "Vivienne Sabo"⟩],
    Locale := "en", CustomerID := "test", TrackNumber := "WBILMTESTTRACK",
    DeliveryService := "meest", Shardkey := "9", SmID := 99,
    Delivery := ⟨"Test Testov", "+9720000000", "2639809", "Kiryat Mozkin", "Ploshad Mira 15",
      "Kraiot", "test@gmail.com"⟩ }

/-- A payload standing for the JSON text of `sampleOrder`. -/
def sampleBytes : Bytes := [123, 125]

/-- A worker that has done nothing yet. -/
def freshWorker : Worker := ⟨[], [], [], [], false, false⟩

/-- Collaborators whose `CreateOrder` always fails and which never cancel. -/
def failingEnv : WorkerEnv :=
  { unmarshal := fun b => if b = sampleBytes then some sampleOrder else none,
    validate := fun _ => none,
    CreateOrder := fun _ _ => some (GoError.other "connection refused"),
    cancelled := fun _ => false,
    close := none }

/-- Collaborators whose `CreateOrder` always fails and whose context is
cancelled during the third backoff wait. -/
def cancellingEnv : WorkerEnv :=
  { failingEnv with cancelled := fun n => decide (n = 2) }

/-- An empty database whose sequences start at 1. -/
def emptyStore : Store := ⟨⟨[], [], [], [], []⟩, ⟨1, 1, 1, 1⟩, []⟩

/-- An empty cache. -/
def emptyCache : Redis := ⟨[]⟩

/-- No driver error during a `Create`. -/
def noWriteFaults : WriteStep → Option GoError := fun _ => none

/-- A driver error at one step of `Create` and nowhere else. -/
def failAt (step : WriteStep) : WriteStep → Option GoError :=
  fun st => if st = step then some (GoError.other "connection reset") else none

/-- A call of `GetByID` at instant `now` during which the driver and the cache
work. -/
def quietAt (now : Int) : ReadEnv := ⟨now, none, fun _ => none, none⟩

/-- A call of `GetByID` at instant `now` during which the cache write fails. -/
def cacheSetFailsAt (now : Int) : ReadEnv :=
  ⟨now, none, fun _ => none, some (GoError.other "redis: connection refused")⟩

/-- The ids `base, base + 1, ..., base + n - 1` that a sequence hands out. -/
def idsFrom (base : Int) (n : Nat) : List Int :=
  (List.range n).map (fun (i : Nat) => base + (i : Int))

/-- The steps that `Create` goes through for an order, in order. -/
def Create.steps (o : Order) : List WriteStep :=
  [WriteStep.begin] ++ (List.range o.Items.length).map WriteStep.insertItem ++
    [WriteStep.insertPayment, WriteStep.insertDelivery, WriteStep.insertOrder] ++
    (List.range o.Items.length).map WriteStep.insertOrderItem ++ [WriteStep.commit]

/-- The statements, with the ids they return, of a `Create` of `o` that starts
on the store `s` and succeeds. The row of the order-header insert is written
out column by column: its `payment_id_fk` is the id returned by the payment
insert. -/
def Create.trace (s : Store) (o : Order) : List Call :=
  [⟨Query.begin, Reply.ok⟩] ++
    ((idsFrom s.seqs.items o.Items.length).zip o.Items).map
      (fun p => ⟨Query.insertItem p.2, Reply.returning p.1⟩) ++
    [⟨Query.insertPayment o.Payment, Reply.returning s.seqs.payment⟩,
     ⟨Query.insertDelivery o.Delivery, Reply.ok⟩,
     ⟨Query.insertOrder
        { OrderUID := o.OrderUID, Entry := o.Entry,
          InternalSignature := o.InternalSignature, payment_id_fk := s.seqs.payment,
          Locale := o.Locale, CustomerID := o.CustomerID, TrackNumber := o.TrackNumber,
          DeliveryService := o.DeliveryService, Shardkey := o.Shardkey, SmID := o.SmID },
      Reply.returning s.seqs.orders⟩] ++
    (idsFrom s.seqs.items o.Items.length).map
      (fun itemId => ⟨Query.insertOrderItem s.seqs.orders itemId, Reply.ok⟩) ++
    [⟨Query.commit, Reply.ok⟩]

/-- The committed rows after a `Create` of `o` that starts on the store `s`
and succeeds. -/
def Create.rows (s : Store) (o : Order) : Tables :=
  { items := s.committed.items ++ (idsFrom s.seqs.items o.Items.length).zip o.Items,
    payment := s.committed.payment ++ [(s.seqs.payment, o.Payment)],
    delivery := s.committed.delivery ++ [(s.seqs.delivery, o.Delivery)],
    orders := s.committed.orders ++
      [(s.seqs.orders,
        { OrderUID := o.OrderUID, Entry := o.Entry,
          InternalSignature := o.InternalSignature, payment_id_fk := s.seqs.payment,
          Locale := o.Locale, CustomerID := o.CustomerID, TrackNumber := o.TrackNumber,
          DeliveryService := o.DeliveryService, Shardkey := o.Shardkey, SmID := o.SmID })],
    order_items := s.committed.order_items ++
      (idsFrom s.seqs.items o.Items.length).map (fun itemId => (s.seqs.orders, itemId)) }

/-- A second valid order, with another recipient. -/
def otherOrder : Order :=
  { sampleOrder with
    OrderUID := "a1c0ffee00000002test", TrackNumber := "WBILMOTHERTRACK",
    Delivery := ⟨"Ivan Ivanov", "+79001234567", "1234567", "Moscow", "Tverskaya 1", "Moscow",
      "ivan@example.com"⟩ }

/-- The store after `Create(sampleOrder)` on the empty database. -/
def storeWithSample : Store := (Postgres.Create emptyStore noWriteFaults sampleOrder).1

/-- The store after a `Create` on the empty database whose order-header
insert failed (the transaction was rolled back). -/
def storeAfterFailedCreate : Store :=
  (Postgres.Create emptyStore (failAt WriteStep.insertOrder) sampleOrder).1

/-- The worker after `j` failed attempts starting at attempt `a`, none of them
cancelled during its backoff. -/
def Worker.afterFailures (w : Worker) (InitialBackoff : Int) (order : Order) (a : Int)
    (j : Nat) : Worker :=
  { w with
    calls := w.calls ++ List.replicate j order,
    waits := w.waits ++ (List.range j).map (fun (i : Nat) => backoff InitialBackoff (a + (i : Int))) }

/-! ## The validator behind `kc.validator`, from the `validate` tags of internal/domain/entities.go -/

/-- One entry of `validator.ValidationErrors`: the namespace of the field and
the tag that failed. -/
structure FieldError where
  field : String
  tag : String
deriving DecidableEq, Repr

/-- The tags of one field, evaluated from left to right: the first tag that
fails is reported and the following ones are not evaluated. Each tag is given
with the result of its check on the value of the field. -/
def checkTags (field : String) (tags : List (String × Bool)) : List FieldError :=
  match tags.find? (fun t => !t.2) with
  | some t => [⟨field, t.1⟩]
  | none => []

/-- The tag `required` on a string: the value is not the empty string. -/
def requiredString (v : String) : String × Bool := ("required", !decide (v = ""))

/-- The tag `required` on an `int`: the value is not the zero value 0. -/
def requiredInt (v : Int) : String × Bool := ("required", !decide (v = 0))

/-- The tag `min=0` on an `int`. -/
def minZero (v : Int) : String × Bool := ("min", decide (0 ≤ v))

/-- The tag `max=100` on an `int`. -/
def maxHundred (v : Int) : String × Bool := ("max", decide (v ≤ 100))

/-- The tag `len=n` on a string: the number of runes. -/
def lenIs (n : Nat) (v : String) : String × Bool := ("len", decide (v.length = n))

/-- The regular expression of the tag `e164`: a plus sign, an optional digit
from 1 to 9, then 7 to 14 digits, that is 7 to 14 digits, or 15 digits of
which the first is not 0. -/
def e164 (v : String) : Bool :=
  match v.data with
  | [] => false
  | c :: ds =>
    decide (c.toNat = 43) && ds.all (fun d => decide (48 ≤ d.toNat ∧ d.toNat ≤ 57)) &&
      (decide (7 ≤ ds.length ∧ ds.length ≤ 14) ||
        (decide (ds.length = 15) && !decide ((ds.head?.map Char.toNat) = some 48)))

/-- The validation of a `domain.Delivery` under the namespace `ns`; `isEmail`
is the regular expression of the tag `email` of the validator library. -/
def Delivery.validate (isEmail : String → Bool) (ns : String) (d : Delivery) :
    List FieldError :=
  checkTags (ns ++ "Name") [requiredString d.Name] ++
  checkTags (ns ++ "Phone") [requiredString d.Phone, ("e164", e164 d.Phone)] ++
  checkTags (ns ++ "Zip") [requiredString d.Zip, lenIs 7 d.Zip] ++
  checkTags (ns ++ "City") [requiredString d.City] ++
  checkTags (ns ++ "Address") [requiredString d.Address] ++
  checkTags (ns ++ "Region") [requiredString d.Region] ++
  checkTags (ns ++ "Email") [requiredString d.Email, ("email", isEmail d.Email)]

/-- The validation of a `domain.Items` under the namespace `ns`; the field
`Size` carries no tag. -/
def Items.validate (ns : String) (it : Items) : List FieldError :=
  checkTags (ns ++ "ChrtID") [requiredInt it.ChrtID] ++
  checkTags (ns ++ "Price") [requiredInt it.Price, minZero it.Price] ++
  checkTags (ns ++ "Rid") [requiredString it.Rid] ++
  checkTags (ns ++ "Name") [requiredString it.Name] ++
  checkTags (ns ++ "Sale") [minZero it.Sale, maxHundred it.Sale] ++
  checkTags (ns ++ "TotalPrice") [requiredInt it.TotalPrice, minZero it.TotalPrice] ++
  checkTags (ns ++ "NmID") [requiredInt it.NmID] ++
  checkTags (ns ++ "Brand") [requiredString it.Brand]

/-- The validation of a `domain.Payment` under the namespace `ns`. -/
def Payment.validate (ns : String) (p : Payment) : List FieldError :=
  checkTags (ns ++ "Transaction") [requiredString p.Transaction] ++
  checkTags (ns ++ "Currency") [requiredString p.Currency, lenIs 3 p.Currency] ++
  checkTags (ns ++ "Provider") [requiredString p.Provider] ++
  checkTags (ns ++ "Amount") [requiredInt p.Amount, minZero p.Amount] ++
  checkTags (ns ++ "PaymentDt") [requiredInt p.PaymentDt] ++
  checkTags (ns ++ "Bank") [requiredString p.Bank] ++
  checkTags (ns ++ "DeliveryCost") [requiredInt p.DeliveryCost, minZero p.DeliveryCost] ++
  checkTags (ns ++ "GoodsTotal") [requiredInt p.GoodsTotal, minZero p.GoodsTotal]

/-- The tag `dive` on `Items`: every element is validated, element `i` under
the namespace `Order.Items[i].`. -/
def diveItems : List Items → Nat → List FieldError
  | [], _ => []
  | it :: rest, i =>
    Items.validate ("Order.Items[" ++ toString i ++ "].") it ++ diveItems rest (i + 1)

/-- The tags `required,dive,required` of the field `Items`. Go tells a nil
slice (no `items` in the message) from an empty one, which the list of the
model does not: `itemsNil` says that the slice is nil, and matters only when
the list is empty. `required` rejects the nil slice only. -/
def validateItems (itemsNil : Bool) (items : List Items) : List FieldError :=
  if itemsNil && items.isEmpty then [⟨"Order.Items", "required"⟩]
  else diveItems items 0

/-- The call `kc.validator.Struct(order)`: the violated constraints in the
order of the fields of `domain.Order` (`OrderUID` and `InternalSignature`
carry no tag; the nested structs are validated field by field). The empty
list is the nil error. -/
def Struct (isEmail : String → Bool) (itemsNil : Bool) (o : Order) : List FieldError :=
  checkTags "Order.Entry" [requiredString o.Entry] ++
  Payment.validate "Order.Payment." o.Payment ++
  validateItems itemsNil o.Items ++
  checkTags "Order.Locale" [requiredString o.Locale] ++
  checkTags "Order.CustomerID" [requiredString o.CustomerID] ++
  checkTags "Order.TrackNumber" [requiredString o.TrackNumber] ++
  checkTags "Order.DeliveryService" [requiredString o.DeliveryService] ++
  checkTags "Order.Shardkey" [requiredString o.Shardkey] ++
  checkTags "Order.SmID" [requiredInt o.SmID] ++
  Delivery.validate isEmail "Order.Delivery." o.Delivery

/-- The error value of `kc.validator.Struct(order)` as the worker sees it. -/
def validatorError (isEmail : String → Bool) (itemsNil : Bool) (o : Order) : Option GoError :=
  if Struct isEmail itemsNil o = [] then none
  else some (GoError.other "validation failed")

/-- A stand-in for the `email` expression of the validator library, used on
sample data only: some character is an at sign. -/
def sampleIsEmail (v : String) : Bool := v.data.any (fun c => decide (c.toNat = 64))

/-- In the words of the spec (section 3 and the claim on required fields):
some required field of the Order is missing or empty, a missing number being
the zero value 0. The fields are order_uid, entry, locale, customer id, track
number, delivery service, shard key, sm-id, every Payment field, every
Delivery field, and the nine listed fields of any item. -/
def Spec.missingRequired (o : Order) : Bool :=
  decide (o.OrderUID = "") || decide (o.Entry = "") || decide (o.Locale = "") ||
  decide (o.CustomerID = "") || decide (o.TrackNumber = "") ||
  decide (o.DeliveryService = "") || decide (o.Shardkey = "") || decide (o.SmID = 0) ||
  decide (o.Payment.Transaction = "") || decide (o.Payment.Currency = "") ||
  decide (o.Payment.Provider = "") || decide (o.Payment.Amount = 0) ||
  decide (o.Payment.PaymentDt = 0) || decide (o.Payment.Bank = "") ||
  decide (o.Payment.DeliveryCost = 0) || decide (o.Payment.GoodsTotal = 0) ||
  decide (o.Delivery.Name = "") || decide (o.Delivery.Phone = "") ||
  decide (o.Delivery.Zip = "") || decide (o.Delivery.City = "") ||
  decide (o.Delivery.Address = "") || decide (o.Delivery.Region = "") ||
  decide (o.Delivery.Email = "") ||
  o.Items.any (fun it =>
    decide (it.ChrtID = 0) || decide (it.Price = 0) || decide (it.Rid = "") ||
    decide (it.Name = "") || decide (it.Sale = 0) || decide (it.Size = "") ||
    decide (it.TotalPrice = 0) || decide (it.NmID = 0) || decide (it.Brand = ""))

/-- Some field that carries the tag `required` is missing or empty: the
fields of `Spec.missingRequired` without `OrderUID`, and, for an item,
without `Sale` and `Size`. -/
def missingTagged (o : Order) : Bool :=
  decide (o.Entry = "") || decide (o.Locale = "") ||
  decide (o.CustomerID = "") || decide (o.TrackNumber = "") ||
  decide (o.DeliveryService = "") || decide (o.Shardkey = "") || decide (o.SmID = 0) ||
  decide (o.Payment.Transaction = "") || decide (o.Payment.Currency = "") ||
  decide (o.Payment.Provider = "") || decide (o.Payment.Amount = 0) ||
  decide (o.Payment.PaymentDt = 0) || decide (o.Payment.Bank = "") ||
  decide (o.Payment.DeliveryCost = 0) || decide (o.Payment.GoodsTotal = 0) ||
  decide (o.Delivery.Name = "") || decide (o.Delivery.Phone = "") ||
  decide (o.Delivery.Zip = "") || decide (o.Delivery.City = "") ||
  decide (o.Delivery.Address = "") || decide (o.Delivery.Region = "") ||
  decide (o.Delivery.Email = "") ||
  o.Items.any (fun it =>
    decide (it.ChrtID = 0) || decide (it.Price = 0) || decide (it.Rid = "") ||
    decide (it.Name = "") || decide (it.TotalPrice = 0) || decide (it.NmID = 0) ||
    decide (it.Brand = ""))

/-- The result of decoding and validating one message in `consumePartition`:
the Order handed to the retry loop, or `none` when the message is skipped. -/
def decodeValid (env : WorkerEnv) (value : Bytes) : Option Order :=
  match env.unmarshal value with
  | none => none
  | some order =>
    match env.validate order with
    | some _ => none
    | none => some order

/-- Collaborators of a worker that decode the payload `[2]` to the sample
order without `entry` and the sample payload to the sample order, that
validate by the tags, and whose `CreateOrder` always succeeds. -/
def validatingEnv : WorkerEnv :=
  { unmarshal := fun b =>
      if b = sampleBytes then some sampleOrder
      else if b = [2] then some { sampleOrder with Entry := "" }
      else none,
    validate := validatorError sampleIsEmail false,
    CreateOrder := fun _ _ => none,
    cancelled := fun _ => false,
    close := none }

/-! ## internal/service/service.go -/

/-- The method `Service.CreateOrder`; `repoCreate` is `s.repo.Create`. -/
def Service.CreateOrder (repoCreate : Order → Int × Option GoError) (order : Order) :
    Int × Option GoError :=
  match repoCreate order with
  | (_, some err) => (0, some (Wrap "service.CreateOrder" err))
  | (id, none) => (id, none)

/-- An error wrapped by `Wrap` once per message of the list, the first message
of the list outermost. -/
def wrapAll (messages : List String) (err : GoError) : GoError :=
  messages.foldr Wrap err

/-! ## internal/kafka/consumer.go: Consume -/

/-- A buffered channel of errors: the values it holds and whether it was
closed. -/
structure Chan where
  buf : List GoError
  closed : Bool
deriving DecidableEq, Repr

/-- The statement `close(ch)`. -/
def Chan.close (ch : Chan) : Chan := { ch with closed := true }

/-- A receive `<-ch` as a case of a `select`: `none` when it cannot proceed
(the channel is open and empty), otherwise the received value, which on a
closed and empty channel is the zero value `nil`. -/
def Chan.tryRecv (ch : Chan) : Option (Option GoError) :=
  match ch.buf with
  | e :: _ => some (some e)
  | [] => if ch.closed then some none else none

/-- The sentinel `context.Canceled`. -/
def contextCanceled : GoError := GoError.other "context canceled"

/-- The function `errors.Join` on non-nil errors: nil for no error, otherwise
an error whose text is the texts joined by newlines (its list of causes is
not modelled). -/
def errorsJoin (errs : List GoError) : Option GoError :=
  if errs.isEmpty then none
  else some (GoError.other (String.intercalate "\n" (errs.map GoError.Error)))

/-- What happens on one partition during a run of `Consume`: its id, the
error of `kc.consumer.ConsumePartition` if opening fails, and for an opened
partition the collaborators of its worker and what its `select` receives. -/
structure Partition where
  id : Int
  openErr : Option GoError
  env : WorkerEnv
  recv : List Recv

/-- The state shared by `Consume` and its workers: the list `errs` and the
channel `kc.errChan` (open while the workers run). -/
structure Shared where
  errs : List GoError
  errChan : List GoError
deriving DecidableEq, Repr

/-- The loop `for _, partition := range partitions` followed by
`kc.wg.Wait()`. The workers are goroutines; here each one runs to its end
before the next partition is opened, which is one of the schedules of the
program. The result is `none` when some worker never returns, in which case
`kc.wg.Wait()` does not return either. -/
def Consume.run (cfg : KafkaConfig) : List Partition → Shared → Option Shared
  | [], sh => some sh
  | p :: rest, sh =>
    match p.openErr with
    | some err =>
        Consume.run cfg rest
          { sh with errs := sh.errs ++
              [GoError.wrap ("consume partition " ++ toString p.id) err] }
    | none =>
      if (consumePartition cfg p.env p.recv ⟨[], [], sh.errs, sh.errChan, false, false⟩).returned
      then
        Consume.run cfg rest
          ⟨(consumePartition cfg p.env p.recv ⟨[], [], sh.errs, sh.errChan, false, false⟩).errs,
           (consumePartition cfg p.env p.recv
              ⟨[], [], sh.errs, sh.errChan, false, false⟩).errChan⟩
      else none

/-- The statements of `Consume` after `kc.wg.Wait()`: `close(kc.errChan)` and
the `select` with its `default` case; `ctxErr` is the value of `ctx.Err()`. -/
def Consume.aggregate (sh : Shared) (ctxErr : Option GoError) : Option GoError :=
  match (Chan.close ⟨sh.errChan, false⟩).tryRecv with
  | some e => e
  | none =>
    if 0 < sh.errs.length then errorsJoin sh.errs
    else if ctxErr = some contextCanceled then ctxErr
    else none

/-- The method `KafkaConsumer.Consume`: `partitions` is the result of
`kc.consumer.Partitions(kc.topic)`, `ctxErr` the value of `ctx.Err()` after
the workers have finished. The result is `none` when `Consume` does not
return, otherwise the returned error (`some none` is the nil error). -/
def Consume (cfg : KafkaConfig) (partitions : Except GoError (List Partition))
    (ctxErr : Option GoError) : Option (Option GoError) :=
  match partitions with
  | Except.error err => some (some (GoError.wrap "get partitions" err))
  | Except.ok ps =>
    match Consume.run cfg ps ⟨[], []⟩ with
    | none => none
    | some sh => some (Consume.aggregate sh ctxErr)

/-! ## internal/handler/handlers.go -/

/-- The JSON body of a response: `ErrorResponse`, `OrderResponse`, or
`gin.H` with the key `order_id`. -/
inductive Body where
  | error (message : String)
  | order (o : Order)
  | orderId (id : Int)
deriving DecidableEq, Repr

/-- The response written by `c.JSON(status, body)`. -/
structure Response where
  status : Nat
  body : Body
deriving DecidableEq, Repr

/-- The interface `handler.OrderRepository`. -/
structure OrderRepository where
  GetByID : Int → Order × Option GoError
  Create : Order → Int × Option GoError

/-- A call received by the repository. -/
inductive RepoCall where
  | getByID (id : Int)
  | create (order : Order)
deriving DecidableEq, Repr

/-- The value of a non-empty string of decimal digits. -/
def digitsValue : List Char → Nat → Option Nat
  | [], acc => some acc
  | c :: rest, acc =>
    if 48 ≤ c.toNat ∧ c.toNat ≤ 57 then digitsValue rest (10 * acc + (c.toNat - 48))
    else none

/-- The integer written by a string in decimal: an optional sign followed by
one digit or more. -/
def decimalValue (s : String) : Option Int :=
  match s.data with
  | [] => none
  | c :: rest =>
    if c.toNat = 45 then
      if rest.isEmpty then none else (digitsValue rest 0).map (fun n => -(n : Int))
    else if c.toNat = 43 then
      if rest.isEmpty then none else (digitsValue rest 0).map (fun n => (n : Int))
    else (digitsValue (c :: rest) 0).map (fun n => (n : Int))

/-- The function `strconv.Atoi` (`int` has 64 bits): the decimal value of the
string when it has one that fits in an `int`, otherwise an error. -/
def Atoi (s : String) : Option Int :=
  match decimalValue s with
  | none => none
  | some v => if -2 ^ 63 ≤ v ∧ v < 2 ^ 63 then some v else none

/-- The method `Handler.GetOrderByID` for the path parameter `idStr`: the
response and the calls made to the repository. -/
def Handler.GetOrderByID (repo : OrderRepository) (idStr : String) :
    Response × List RepoCall :=
  match Atoi idStr with
  | none => (⟨400, Body.error "Invalid order ID"⟩, [])
  | some id =>
    match repo.GetByID id with
    | (_, some err) =>
        if err.Is ErrNotFound then
          (⟨404, Body.error "Order not found"⟩, [RepoCall.getByID id])
        else (⟨500, Body.error "Internal server error"⟩, [RepoCall.getByID id])
    | (order, none) => (⟨200, Body.order order⟩, [RepoCall.getByID id])

/-- The method `Handler.CreateOrder` for a request body; `bind` is
`c.BindJSON(&order)` (`none` when it returns an error). -/
def Handler.CreateOrder (repo : OrderRepository) (bind : Bytes → Option Order)
    (body : Bytes) : Response × List RepoCall :=
  match bind body with
  | none => (⟨400, Body.error "Invalid input"⟩, [])
  | some order =>
    match repo.Create order with
    | (_, some _) => (⟨500, Body.error "Failed to create order"⟩, [RepoCall.create order])
    | (id, none) => (⟨201, Body.orderId id⟩, [RepoCall.create order])

/-! ## Sample runs of `Consume` and `GetByID` -/

/-- A partition that cannot be opened. -/
def unopenedPartition : Partition :=
  ⟨0, some (GoError.other "kafka: broker not available"), failingEnv, []⟩

/-- A partition that delivers the sample message to a worker whose
`CreateOrder` always fails, and then closes its message channel. -/
def exhaustedPartition : Partition :=
  ⟨0, none, failingEnv, [Recv.message sampleBytes, Recv.messagesClosed]⟩

/-- A partition that delivers a transport error, which the worker sends on
`kc.errChan`, and then closes its message channel. -/
def transportErrorPartition : Partition :=
  ⟨0, none, failingEnv,
    [Recv.error (GoError.other "kafka: broker down") true, Recv.messagesClosed]⟩

/-- A partition whose worker only sees the cancellation of the context. -/
def cancelledPartition : Partition :=
  ⟨0, none, failingEnv, [Recv.ctxDone]⟩

/-- A partition that delivers the sample message to a worker whose
`CreateOrder` succeeds, and then closes its message channel. -/
def quietPartition : Partition :=
  ⟨0, none, validatingEnv, [Recv.message sampleBytes, Recv.messagesClosed]⟩

/-- A call of `GetByID` at instant `now` during which the driver returns an
error at one step and nowhere else, and the cache holds nothing. -/
def readFaultAt (now : Int) (step : ReadStep) : ReadEnv :=
  ⟨now, none, fun st => if st = step then some (GoError.other "connection reset") else none,
   none⟩

/-! ## Lemmas on the relational store -/

theorem queryRow_work {α : Type} (tx : Tx) (fault : Option GoError) (q : Query)
    (row : Option α) : (tx.queryRow fault q row).1.work = tx.work := by
  unfold Tx.queryRow
  cases fault <;> cases row <;> rfl

theorem queryRow_some {α : Type} (tx : Tx) (q : Query) (a : α) :
    tx.queryRow none q (some a) = (tx.record q Reply.ok, Except.ok a) :=
  rfl

theorem record_work (tx : Tx) (q : Query) (r : Reply) : (tx.record q r).work = tx.work := rfl

theorem scanItemIDs_noFaults (faults : ReadStep → Option GoError)
    (hf : ∀ st, faults st = none) (ids : List Int) :
    ∀ (i : Nat) (acc : List Int),
      GetByID.scanItemIDs faults ids i acc = Except.ok (acc ++ ids) := by
  induction ids with
  | nil => intro i acc; simp [GetByID.scanItemIDs]
  | cons a rest ih =>
    intro i acc
    simp [GetByID.scanItemIDs, hf, ih]

theorem idsFrom_succ (base : Int) (n : Nat) :
    idsFrom base (n + 1) = base :: idsFrom (base + 1) n := by
  simp only [idsFrom, List.range_succ_eq_map, List.map_cons, List.map_map]
  congr 1
  · simp
  · apply List.map_congr_left
    intro i _
    simp only [Function.comp, Nat.succ_eq_add_one, Nat.cast_add, Nat.cast_one]
    ring

theorem idsFrom_length (base : Int) (n : Nat) : (idsFrom base n).length = n := by
  simp [idsFrom]

theorem insertItems_ok (faults : WriteStep → Option GoError) (items : List Items) :
    ∀ (i : Nat) (tx : Tx) (acc : List Int),
      (∀ j, j < items.length → faults (WriteStep.insertItem (i + j)) = none) →
      Create.insertItems faults items i tx acc =
        (⟨{ tx.work with
              items := tx.work.items ++ (idsFrom tx.seqs.items items.length).zip items },
          { tx.seqs with items := tx.seqs.items + (items.length : Int) },
          tx.log ++ ((idsFrom tx.seqs.items items.length).zip items).map
            (fun p => ⟨Query.insertItem p.2, Reply.returning p.1⟩)⟩,
         Except.ok (acc ++ idsFrom tx.seqs.items items.length)) := by
  induction items with
  | nil => intro i tx acc _; simp [Create.insertItems, idsFrom]
  | cons item rest ih =>
    intro i tx acc hf
    have h0 := hf 0 (by simp)
    rw [Nat.add_zero] at h0
    unfold Create.insertItems
    rw [h0]
    simp only
    rw [ih (i + 1) _ _ (fun j hj => by
      have := hf (j + 1) (by simp; omega)
      rw [show i + (j + 1) = i + 1 + j by omega] at this
      exact this)]
    simp only [Tx.insertItem, List.length_cons, idsFrom_succ, List.zip_cons_cons, List.map_cons,
      List.append_assoc, List.singleton_append, Nat.cast_add, Nat.cast_one]
    congr 2
    congr 1
    ring

theorem insertItems_err (faults : WriteStep → Option GoError) (items : List Items) :
    ∀ (i : Nat) (tx : Tx) (acc : List Int),
      (∃ j, j < items.length ∧ faults (WriteStep.insertItem (i + j)) ≠ none) →
      ∃ tx1 err, Create.insertItems faults items i tx acc = (tx1, Except.error err) := by
  induction items with
  | nil => intro i tx acc ⟨j, hj, _⟩; simp at hj
  | cons item rest ih =>
    intro i tx acc ⟨j, hj, hne⟩
    unfold Create.insertItems
    cases h0 : faults (WriteStep.insertItem i) with
    | some err => exact ⟨_, _, rfl⟩
    | none =>
      simp only
      cases j with
      | zero => rw [Nat.add_zero] at hne; exact absurd h0 hne
      | succ j =>
        apply ih
        refine ⟨j, by simpa using hj, ?_⟩
        rw [show i + 1 + j = i + (j + 1) by omega]
        exact hne

theorem insertOrderItems_ok (faults : WriteStep → Option GoError) (orderIdFk : Int)
    (ids : List Int) :
    ∀ (i : Nat) (tx : Tx),
      (∀ j, j < ids.length → faults (WriteStep.insertOrderItem (i + j)) = none) →
      Create.insertOrderItems faults orderIdFk ids i tx =
        (⟨{ tx.work with
              order_items := tx.work.order_items ++ ids.map (fun itemId => (orderIdFk, itemId)) },
          tx.seqs,
          tx.log ++ ids.map (fun itemId => ⟨Query.insertOrderItem orderIdFk itemId, Reply.ok⟩)⟩,
         none) := by
  induction ids with
  | nil => intro i tx _; simp [Create.insertOrderItems]
  | cons itemId rest ih =>
    intro i tx hf
    have h0 := hf 0 (by simp)
    rw [Nat.add_zero] at h0
    unfold Create.insertOrderItems
    rw [h0]
    simp only
    rw [ih (i + 1) _ (fun j hj => by
      have := hf (j + 1) (by simp; omega)
      rw [show i + (j + 1) = i + 1 + j by omega] at this
      exact this)]
    simp [Tx.insertOrderItem]

theorem insertOrderItems_err (faults : WriteStep → Option GoError) (orderIdFk : Int)
    (ids : List Int) :
    ∀ (i : Nat) (tx : Tx),
      (∃ j, j < ids.length ∧ faults (WriteStep.insertOrderItem (i + j)) ≠ none) →
      ∃ tx1 err, Create.insertOrderItems faults orderIdFk ids i tx = (tx1, some err) := by
  induction ids with
  | nil => intro i tx ⟨j, hj, _⟩; simp at hj
  | cons itemId rest ih =>
    intro i tx ⟨j, hj, hne⟩
    unfold Create.insertOrderItems
    cases h0 : faults (WriteStep.insertOrderItem i) with
    | some err => exact ⟨_, _, rfl⟩
    | none =>
      simp only
      cases j with
      | zero => rw [Nat.add_zero] at hne; exact absurd h0 hne
      | succ j =>
        apply ih
        refine ⟨j, by simpa using hj, ?_⟩
        rw [show i + 1 + j = i + (j + 1) by omega]
        exact hne

theorem insertOrderItems_none_inv (faults : WriteStep → Option GoError) (orderIdFk : Int)
    (ids : List Int) (i : Nat) (tx tx5 : Tx)
    (heq : Create.insertOrderItems faults orderIdFk ids i tx = (tx5, none)) :
    ∀ j, j < ids.length → faults (WriteStep.insertOrderItem (i + j)) = none := by
  intro j hj
  by_contra hne
  obtain ⟨tx1, err, h⟩ := insertOrderItems_err faults orderIdFk ids i tx ⟨j, hj, hne⟩
  rw [h] at heq
  simp at heq

theorem steps_mem_iff (o : Order) (step : WriteStep) :
    step ∈ Create.steps o ↔
      ((((step = WriteStep.begin ∨ ∃ j, j < o.Items.length ∧ WriteStep.insertItem j = step) ∨
        step = WriteStep.insertPayment ∨ step = WriteStep.insertDelivery ∨
        step = WriteStep.insertOrder) ∨
        ∃ j, j < o.Items.length ∧ WriteStep.insertOrderItem j = step) ∨
        step = WriteStep.commit) := by
  simp only [Create.steps, List.mem_append, List.mem_singleton, List.mem_map, List.mem_range,
    List.mem_cons, List.mem_nil_iff, or_false]

theorem insertItem_mem_steps (o : Order) (j : Nat) (hj : j < o.Items.length) :
    WriteStep.insertItem j ∈ Create.steps o := by
  rw [steps_mem_iff]
  simp [hj]

theorem insertOrderItem_mem_steps (o : Order) (j : Nat) (hj : j < o.Items.length) :
    WriteStep.insertOrderItem j ∈ Create.steps o := by
  rw [steps_mem_iff]
  simp [hj]

theorem Create_success (s : Store) (faults : WriteStep → Option GoError) (o : Order)
    (hf : ∀ step, step ∈ Create.steps o → faults step = none) :
    Postgres.Create s faults o =
      (⟨Create.rows s o,
        ⟨s.seqs.items + (o.Items.length : Int), s.seqs.payment + 1, s.seqs.delivery + 1,
         s.seqs.orders + 1⟩,
        s.log ++ Create.trace s o⟩, s.seqs.orders, none) := by
  have hb := hf WriteStep.begin (by simp [Create.steps])
  have hi : ∀ j, j < o.Items.length → faults (WriteStep.insertItem (0 + j)) = none := by
    intro j hj
    rw [Nat.zero_add]
    exact hf _ (insertItem_mem_steps o j hj)
  have hp := hf WriteStep.insertPayment (by simp [Create.steps])
  have hd := hf WriteStep.insertDelivery (by simp [Create.steps])
  have ho := hf WriteStep.insertOrder (by simp [Create.steps])
  have ha : ∀ j, j < (([] : List Int) ++ idsFrom s.beginTx.seqs.items o.Items.length).length →
      faults (WriteStep.insertOrderItem (0 + j)) = none := by
    intro j hj
    rw [Nat.zero_add]
    rw [List.nil_append, idsFrom_length] at hj
    exact hf _ (insertOrderItem_mem_steps o j hj)
  have hc := hf WriteStep.commit (by simp [Create.steps])
  unfold Postgres.Create Create.body
  rw [hb]
  simp only
  rw [insertItems_ok faults o.Items 0 s.beginTx [] hi]
  simp only [hp, hd, ho, hc]
  rw [insertOrderItems_ok faults _ _ 0 _ ha]
  simp [Tx.commit, Tx.insertPayment, Tx.insertDelivery, Tx.insertOrder, Store.beginTx,
    Create.rows, Create.trace, Order.header]

theorem Create_failure (s : Store) (faults : WriteStep → Option GoError) (o : Order)
    (step : WriteStep) (hstep : step ∈ Create.steps o) (hfail : faults step ≠ none) :
    ∃ st err, Postgres.Create s faults o = (st, 0, some err) ∧ st.committed = s.committed := by
  unfold Postgres.Create
  cases hb : faults WriteStep.begin with
  | some err => exact ⟨_, _, rfl, rfl⟩
  | none =>
    simp only
    suffices hbody : ∃ tx err, Create.body faults o s.beginTx = (tx, 0, some err) by
      obtain ⟨tx, err, h⟩ := hbody
      rw [h]
      exact ⟨_, _, rfl, rfl⟩
    unfold Create.body
    by_cases hi : ∀ j, j < o.Items.length → faults (WriteStep.insertItem (0 + j)) = none
    · rw [insertItems_ok faults o.Items 0 s.beginTx [] hi]
      simp only
      cases hp : faults WriteStep.insertPayment with
      | some err => exact ⟨_, _, rfl⟩
      | none =>
        simp only
        cases hd : faults WriteStep.insertDelivery with
        | some err => exact ⟨_, _, rfl⟩
        | none =>
          simp only
          cases ho : faults WriteStep.insertOrder with
          | some err => exact ⟨_, _, rfl⟩
          | none =>
            simp only
            by_cases ha : ∀ j, j < (([] : List Int) ++
                idsFrom s.beginTx.seqs.items o.Items.length).length →
                faults (WriteStep.insertOrderItem (0 + j)) = none
            · rw [insertOrderItems_ok faults _ _ 0 _ ha]
              simp only
              cases hc : faults WriteStep.commit with
              | some err => exact ⟨_, _, rfl⟩
              | none =>
                exfalso
                rcases (steps_mem_iff o step).1 hstep with
                  (((h | ⟨j, hj, h⟩) | h | h | h) | ⟨j, hj, h⟩) | h
                · exact hfail (h ▸ hb)
                · have := hi j hj
                  rw [Nat.zero_add, h] at this
                  exact hfail this
                · exact hfail (h ▸ hp)
                · exact hfail (h ▸ hd)
                · exact hfail (h ▸ ho)
                · have := ha j (by rw [List.nil_append, idsFrom_length]; exact hj)
                  rw [Nat.zero_add, h] at this
                  exact hfail this
                · exact hfail (h ▸ hc)
            · split
              · exact ⟨_, _, rfl⟩
              · rename_i tx5 heq
                exact absurd (insertOrderItems_none_inv faults _ _ _ _ _ heq) ha
    · have hex : ∃ j, j < o.Items.length ∧ faults (WriteStep.insertItem (0 + j)) ≠ none := by
        by_contra hcon
        apply hi
        intro j hj
        by_contra hne
        exact hcon ⟨j, hj, hne⟩
      obtain ⟨tx1, err, h⟩ := insertItems_err faults o.Items 0 s.beginTx [] hex
      rw [h]
      exact ⟨_, _, rfl⟩

theorem lookupRow_append {α : Type} (rows extra : List (Int × α)) (id : Int)
    (h : lookupRow rows id = none) : lookupRow (rows ++ extra) id = lookupRow extra id := by
  unfold lookupRow at *
  rw [List.find?_append]
  cases hfind : rows.find? (fun r => decide (r.1 = id)) with
  | none => simp
  | some a => rw [hfind] at h; simp at h

theorem lookupRow_single {α : Type} (id : Int) (a : α) : lookupRow [(id, a)] id = some a := by
  simp [lookupRow]

theorem lookupRow_zip_idsFrom (items : List Items) :
    ∀ (base : Int) (k : Nat) (hk : k < items.length),
      lookupRow ((idsFrom base items.length).zip items) (base + (k : Int)) = some items[k] := by
  induction items with
  | nil => intro base k hk; simp at hk
  | cons item rest ih =>
    intro base k hk
    rw [List.length_cons, idsFrom_succ, List.zip_cons_cons]
    cases k with
    | zero => simp [lookupRow]
    | succ k =>
      have hne : ¬ (base = base + ((k + 1 : Nat) : Int)) := by push_cast; omega
      have := ih (base + 1) k (by simpa using hk)
      unfold lookupRow at this ⊢
      rw [List.find?_cons]
      simp only [hne, decide_False]
      rw [show base + ((k + 1 : Nat) : Int) = base + 1 + (k : Int) by push_cast; ring]
      simpa using this

theorem readItems_found (faults : ReadStep → Option GoError) (hf : ∀ st, faults st = none)
    (ids : List Int) :
    ∀ (items : List Items) (i : Nat) (tx : Tx) (o : Order),
      ids.length = items.length →
      (∀ k (h1 : k < ids.length) (h2 : k < items.length),
        lookupRow tx.work.items ids[k] = some items[k]) →
      (GetByID.readItems faults ids i tx o).2 = ({ o with Items := o.Items ++ items }, none) := by
  induction ids with
  | nil =>
    intro items i tx o hlen _
    have : items = [] := List.length_eq_zero.mp hlen.symm
    subst this
    simp [GetByID.readItems]
  | cons a rest ih =>
    intro items i tx o hlen hrow
    cases items with
    | nil => simp at hlen
    | cons item more =>
      have h0 := hrow 0 (by simp) (by simp)
      simp only [List.getElem_cons_zero] at h0
      unfold GetByID.readItems
      rw [hf, h0, queryRow_some]
      simp only
      rw [ih more (i + 1) _ _ (by simpa using hlen) (fun k h1 h2 => by
        have := hrow (k + 1) (by simp; omega) (by simp; omega)
        simpa using this)]
      simp

theorem readItems_found_of_eq (faults : ReadStep → Option GoError)
    (hf : ∀ st, faults st = none) (ids : List Int) (items : List Items) (i : Nat) (tx : Tx)
    (o : Order) (res : Tx × Order × Option GoError)
    (heq : GetByID.readItems faults ids i tx o = res)
    (hlen : ids.length = items.length)
    (hrow : ∀ k (h1 : k < ids.length) (h2 : k < items.length),
      lookupRow tx.work.items ids[k] = some items[k]) :
    res.2 = ({ o with Items := o.Items ++ items }, none) := by
  rw [← heq]
  exact readItems_found faults hf ids items i tx o hlen hrow

theorem lookup_mono (r : Redis) (now1 now2 : Int) (key : String) (p : Payload)
    (h1 : r.lookup now1 key = some p) (h2 : (r.lookup now2 key).isSome = true) :
    r.lookup now2 key = some p := by
  unfold Redis.lookup at *
  cases hfind : r.entries.find? (fun e => decide (e.key = key)) with
  | none => rw [hfind] at h1; simp at h1
  | some e =>
    rw [hfind] at h1 h2
    simp only at h1 h2 ⊢
    by_cases hlt1 : now1 < e.expireAt
    · rw [if_pos hlt1] at h1
      by_cases hlt2 : now2 < e.expireAt
      · rw [if_pos hlt2]; exact h1
      · rw [if_neg hlt2] at h2; simp at h2
    · rw [if_neg hlt1] at h1; simp at h1

theorem get_hit_inv (r : Redis) (now : Int) (fault : Option GoError) (key : String)
    (dest o : Order) (h : Redis.Get r now fault key dest = (o, none)) :
    fault = none ∧ r.lookup now key = some (Payload.json o) := by
  unfold Redis.Get at h
  cases fault with
  | some err => simp at h
  | none =>
    simp only at h
    cases hl : r.lookup now key with
    | none => rw [hl] at h; simp at h
    | some p =>
      rw [hl] at h
      cases p with
      | json o1 => simp at h; rw [h]; exact ⟨rfl, rfl⟩
      | malformed d t => simp at h

theorem get_of_lookup (r : Redis) (now : Int) (key : String) (dest o : Order)
    (h : r.lookup now key = some (Payload.json o)) :
    Redis.Get r now none key dest = (o, none) := by
  simp [Redis.Get, h]

/-! ## The persistence store: Create and GetByID -/

/-- C1 (the code departs from it): after one `Create` that was rolled back at
the order-header insert, a successful `Create(sampleOrder)` returns id 1 and
`GetByID(1)` answers not-found, because the delivery row is looked up under
the order id while it was stored under the next value of the delivery
sequence; the next order created is then read back with the delivery of the
previous one. -/
theorem C1_roundtrip_broken_after_rollback :
    (Postgres.Create storeAfterFailedCreate noWriteFaults sampleOrder).2 = (1, none) ∧
    (Postgres.GetByID (Postgres.Create storeAfterFailedCreate noWriteFaults sampleOrder).1
        emptyCache (quietAt 0) 1).2 = (Order.zero, some ErrNotFound) ∧
    (Postgres.Create (Postgres.Create storeAfterFailedCreate noWriteFaults sampleOrder).1
        noWriteFaults otherOrder).2 = (2, none) ∧
    (Postgres.GetByID
        (Postgres.Create (Postgres.Create storeAfterFailedCreate noWriteFaults sampleOrder).1
          noWriteFaults otherOrder).1
        emptyCache (quietAt 0) 2).2 =
      ({ otherOrder with Delivery := sampleOrder.Delivery }, none) := by
  decide

/-- Round trip when the delivery sequence is level with the order sequence:
on a store whose next delivery id equals its next order id and whose next ids
are unused, a `Create` without driver error followed by `GetByID` of the
returned id (cache absent, no driver error) returns the order that was
created, items in their original order. -/
theorem roundtrip_in_sync (s : Store) (r : Redis) (env : ReadEnv) (o : Order) (e : GoError)
    (hsync : s.seqs.delivery = s.seqs.orders)
    (hO : lookupRow s.committed.orders s.seqs.orders = none)
    (hD : lookupRow s.committed.delivery s.seqs.delivery = none)
    (hP : lookupRow s.committed.payment s.seqs.payment = none)
    (hI : ∀ j : Nat, j < o.Items.length →
      lookupRow s.committed.items (s.seqs.items + (j : Int)) = none)
    (hA : selectItemIDs s.committed s.seqs.orders = [])
    (hmiss : Redis.Get r env.now env.cacheGet (cacheKey s.seqs.orders) Order.zero =
      (Order.zero, some e))
    (hf : ∀ st, env.faults st = none) :
    (Postgres.Create s noWriteFaults o).2 = (s.seqs.orders, none) ∧
    (Postgres.GetByID (Postgres.Create s noWriteFaults o).1 r env s.seqs.orders).2 =
      (o, none) := by
  rw [Create_success s noWriteFaults o (fun _ _ => rfl)]
  refine ⟨rfl, ?_⟩
  unfold Postgres.GetByID
  rw [hmiss]
  simp only [hf]
  have hitems : ∀ k (h1 : k < (idsFrom s.seqs.items o.Items.length).length)
      (h2 : k < o.Items.length),
      lookupRow (Create.rows s o).items (idsFrom s.seqs.items o.Items.length)[k] =
        some o.Items[k] := by
    intro k h1 h2
    have hid : (idsFrom s.seqs.items o.Items.length)[k] = s.seqs.items + (k : Int) := by
      simp [idsFrom]
    rw [hid]
    show lookupRow (s.committed.items ++ _) _ = _
    rw [lookupRow_append _ _ _ (hI k h2)]
    exact lookupRow_zip_idsFrom o.Items s.seqs.items k h2
  have hsel : selectItemIDs (Create.rows s o) s.seqs.orders =
      idsFrom s.seqs.items o.Items.length := by
    unfold selectItemIDs at hA ⊢
    show List.map Prod.snd (List.filter _ (s.committed.order_items ++ _)) = _
    rw [List.filter_append, List.map_append, hA, List.nil_append]
    generalize idsFrom s.seqs.items o.Items.length = ids
    induction ids with
    | nil => rfl
    | cons a rest ih => simp [List.filter_cons] at ih ⊢; exact ih
  have hbody : (GetByID.body env.faults s.seqs.orders Order.zero
      (Store.beginTx ⟨Create.rows s o,
        ⟨s.seqs.items + (o.Items.length : Int), s.seqs.payment + 1, s.seqs.delivery + 1,
         s.seqs.orders + 1⟩, s.log ++ Create.trace s o⟩)).2 = (o, none) := by
    unfold GetByID.body
    simp only [hf, Store.beginTx, queryRow_work, record_work]
    have h1 : lookupRow (Create.rows s o).orders s.seqs.orders =
        some (o.header s.seqs.payment) := by
      show lookupRow (s.committed.orders ++ _) _ = _
      rw [lookupRow_append _ _ _ hO, lookupRow_single]
      rfl
    have h2 : lookupRow (Create.rows s o).delivery s.seqs.orders = some o.Delivery := by
      show lookupRow (s.committed.delivery ++ _) _ = _
      rw [← hsync, lookupRow_append _ _ _ hD, lookupRow_single]
    have h3 : lookupRow (Create.rows s o).payment s.seqs.payment = some o.Payment := by
      show lookupRow (s.committed.payment ++ _) _ = _
      rw [lookupRow_append _ _ _ hP, lookupRow_single]
    rw [h1, queryRow_some]
    simp only [record_work]
    rw [h2, queryRow_some]
    simp only [record_work, Order.header]
    rw [h3, queryRow_some]
    simp only [record_work]
    rw [hsel, scanItemIDs_noFaults env.faults hf]
    simp only [List.nil_append]
    split
    · rename_i tx5 o4 err heq
      have := readItems_found_of_eq env.faults hf _ o.Items _ _ _ _ heq (idsFrom_length _ _)
        hitems
      simp at this
    · rename_i tx5 o4 heq
      have := readItems_found_of_eq env.faults hf _ o.Items _ _ _ _ heq (idsFrom_length _ _)
        hitems
      simp only [Prod.mk.injEq, and_true] at this
      rw [this]
      cases o
      simp [Order.setHeader, Order.zero]
  rcases hb : GetByID.body env.faults s.seqs.orders Order.zero
      (Store.beginTx ⟨Create.rows s o,
        ⟨s.seqs.items + (o.Items.length : Int), s.seqs.payment + 1, s.seqs.delivery + 1,
         s.seqs.orders + 1⟩, s.log ++ Create.trace s o⟩) with ⟨tx, o1, err⟩
  rw [hb] at hbody
  simp only [Prod.mk.injEq] at hbody
  obtain ⟨h1, h2⟩ := hbody
  subst h1; subst h2
  rfl

/-- The statement of `roundtrip_in_sync` on the empty database. -/
theorem roundtrip_in_sync_witness :
    (Postgres.Create emptyStore noWriteFaults sampleOrder).2 = (emptyStore.seqs.orders, none) ∧
    (Postgres.GetByID (Postgres.Create emptyStore noWriteFaults sampleOrder).1 emptyCache
        (quietAt 0) emptyStore.seqs.orders).2 = (sampleOrder, none) :=
  roundtrip_in_sync emptyStore emptyCache (quietAt 0) sampleOrder
    (GoError.other "the requested key is not found: redis: nil") rfl rfl rfl rfl
    (fun _ _ => rfl) rfl rfl (fun _ => rfl)

/-- C2: whichever step of `Create` fails (begin, an item insert, the payment,
delivery or order-header insert, an association insert, the commit), `Create`
returns id 0 with a non-nil error and the committed rows of all five tables
are those from before the call. -/
theorem C2_create_atomic (s : Store) (faults : WriteStep → Option GoError) (o : Order)
    (step : WriteStep) (hstep : step ∈ Create.steps o) (hfail : faults step ≠ none) :
    (Postgres.Create s faults o).2.1 = 0 ∧ (Postgres.Create s faults o).2.2 ≠ none ∧
      (Postgres.Create s faults o).1.committed = s.committed := by
  obtain ⟨st, err, h, hc⟩ := Create_failure s faults o step hstep hfail
  rw [h]
  exact ⟨rfl, by simp, hc⟩

/-- The statement of C2 when the item inserts succeed and the payment insert
fails: nothing of the attempted order is committed. -/
theorem C2_create_atomic_witness :
    (Postgres.Create emptyStore (failAt WriteStep.insertPayment) sampleOrder).2.1 = 0 ∧
      (Postgres.Create emptyStore (failAt WriteStep.insertPayment) sampleOrder).2.2 ≠ none ∧
      (Postgres.Create emptyStore (failAt WriteStep.insertPayment) sampleOrder).1.committed =
        emptyStore.committed :=
  C2_create_atomic emptyStore (failAt WriteStep.insertPayment) sampleOrder
    WriteStep.insertPayment (by decide) (by decide)

/-- C3: a `Create` that succeeds has sent, inside one transaction and in this
order, one insert per item in the order of `o.Items`, the payment insert, the
delivery insert, the order-header insert carrying the id returned by the
payment insert, and one association insert per item pairing the id returned
by the order-header insert with the id returned by the insert of that item;
it returns the id returned by the order-header insert. The second part says
it once more on the statements themselves: the payment insert returned
`s.seqs.payment`, and every order-header insert among the statements of the
call carries the columns of `o` with that id as `payment_id_fk` and returned
the id that `Create` returns. -/
theorem C3_create_statement_order (s : Store) (faults : WriteStep → Option GoError) (o : Order)
    (hok : (Postgres.Create s faults o).2.2 = none) :
    (Postgres.Create s faults o).1.log = s.log ++ Create.trace s o ∧
      (Postgres.Create s faults o).2.1 = s.seqs.orders ∧
      (⟨Query.insertPayment o.Payment, Reply.returning s.seqs.payment⟩ : Call) ∈
        (Postgres.Create s faults o).1.log.drop s.log.length ∧
      (∀ (row : OrderRow) (reply : Reply),
        (⟨Query.insertOrder row, reply⟩ : Call) ∈
          (Postgres.Create s faults o).1.log.drop s.log.length →
        row.payment_id_fk = s.seqs.payment ∧
          reply = Reply.returning (Postgres.Create s faults o).2.1 ∧
          row = ⟨o.OrderUID, o.Entry, o.InternalSignature, s.seqs.payment, o.Locale,
            o.CustomerID, o.TrackNumber, o.DeliveryService, o.Shardkey, o.SmID⟩) := by
  have hf : ∀ step, step ∈ Create.steps o → faults step = none := by
    intro step hstep
    by_contra hne
    obtain ⟨st, err, h, _⟩ := Create_failure s faults o step hstep hne
    rw [h] at hok
    simp at hok
  rw [Create_success s faults o hf]
  refine ⟨rfl, rfl, ?_, ?_⟩
  · simp [Create.trace]
  · intro row reply hmem
    simp only [List.drop_left] at hmem
    simp [Create.trace] at hmem
    obtain ⟨h1, h2⟩ := hmem
    subst h1
    subst h2
    exact ⟨rfl, rfl, rfl⟩

/-- The statement of C3 for `sampleOrder` on the empty database. -/
theorem C3_create_statement_order_witness :
    (Postgres.Create emptyStore noWriteFaults sampleOrder).1.log =
        emptyStore.log ++ Create.trace emptyStore sampleOrder ∧
      (Postgres.Create emptyStore noWriteFaults sampleOrder).2.1 = emptyStore.seqs.orders ∧
      (⟨Query.insertPayment sampleOrder.Payment, Reply.returning emptyStore.seqs.payment⟩ :
          Call) ∈
        (Postgres.Create emptyStore noWriteFaults sampleOrder).1.log.drop emptyStore.log.length ∧
      (∀ (row : OrderRow) (reply : Reply),
        (⟨Query.insertOrder row, reply⟩ : Call) ∈
          (Postgres.Create emptyStore noWriteFaults sampleOrder).1.log.drop
            emptyStore.log.length →
        row.payment_id_fk = emptyStore.seqs.payment ∧
          reply = Reply.returning (Postgres.Create emptyStore noWriteFaults sampleOrder).2.1 ∧
          row = ⟨sampleOrder.OrderUID, sampleOrder.Entry, sampleOrder.InternalSignature,
            emptyStore.seqs.payment, sampleOrder.Locale, sampleOrder.CustomerID,
            sampleOrder.TrackNumber, sampleOrder.DeliveryService, sampleOrder.Shardkey,
            sampleOrder.SmID⟩) :=
  C3_create_statement_order emptyStore noWriteFaults sampleOrder (by decide)

/-- C4: on a cache hit `GetByID` returns the cached Order with a nil error and
leaves the relational store exactly as it was: no transaction is begun and no
statement is recorded. -/
theorem C4_cache_hit (s : Store) (r : Redis) (env : ReadEnv) (id : Int) (o : Order)
    (hhit : Redis.Get r env.now env.cacheGet (cacheKey id) Order.zero = (o, none)) :
    Postgres.GetByID s r env id = ((s, r), o, none) := by
  unfold Postgres.GetByID
  rw [hhit]

/-- The statement of C4 on a cache that holds order 1. -/
theorem C4_cache_hit_witness :
    Postgres.GetByID emptyStore ⟨[⟨"order: 1", Payload.json sampleOrder, 10⟩]⟩ (quietAt 0) 1 =
      ((emptyStore, ⟨[⟨"order: 1", Payload.json sampleOrder, 10⟩]⟩), sampleOrder, none) :=
  C4_cache_hit emptyStore ⟨[⟨"order: 1", Payload.json sampleOrder, 10⟩]⟩ (quietAt 0) 1
    sampleOrder (by decide)

/-- C5 as stated fails: when the cache write of the first `GetByID` fails, the
first call still succeeds and the second call queries the relational store
again. -/
theorem C5_counterexample :
    (Postgres.GetByID storeWithSample emptyCache (cacheSetFailsAt 0) 1).2.2 = none ∧
    (Postgres.GetByID
        (Postgres.GetByID storeWithSample emptyCache (cacheSetFailsAt 0) 1).1.1
        (Postgres.GetByID storeWithSample emptyCache (cacheSetFailsAt 0) 1).1.2
        (quietAt 1) 1).1.1.log ≠
      (Postgres.GetByID storeWithSample emptyCache (cacheSetFailsAt 0) 1).1.1.log := by
  decide

/-- C5 (amended): when the first `GetByID` succeeds, its cache write is
accepted, and on the second call the cache answers and still holds an
unexpired entry for the key, the second call returns the same Order with a
nil error and leaves the relational store untouched. -/
theorem C5_second_read_from_cache (s : Store) (r : Redis) (env1 env2 : ReadEnv) (id : Int)
    (hok : (Postgres.GetByID s r env1 id).2.2 = none)
    (hset : env1.cacheSet = none)
    (hget : env2.cacheGet = none)
    (hlive : ((Postgres.GetByID s r env1 id).1.2.lookup env2.now (cacheKey id)).isSome = true) :
    Postgres.GetByID (Postgres.GetByID s r env1 id).1.1 (Postgres.GetByID s r env1 id).1.2
        env2 id =
      ((Postgres.GetByID s r env1 id).1, (Postgres.GetByID s r env1 id).2.1, none) := by
  have key : ∀ (st : Store × Redis) (o : Order),
      st.2.lookup env2.now (cacheKey id) = some (Payload.json o) →
      Postgres.GetByID st.1 st.2 env2 id = (st, o, none) := by
    intro st o hl
    unfold Postgres.GetByID
    rw [hget, get_of_lookup st.2 env2.now (cacheKey id) Order.zero o hl]
  apply key
  revert hok hlive
  unfold Postgres.GetByID
  rcases hg : Redis.Get r env1.now env1.cacheGet (cacheKey id) Order.zero with ⟨o, _ | e⟩
  · intro _ hlive
    obtain ⟨_, hl⟩ := get_hit_inv r env1.now env1.cacheGet (cacheKey id) Order.zero o hg
    exact lookup_mono r env1.now env2.now (cacheKey id) _ hl hlive
  · simp only
    cases hb : env1.faults ReadStep.begin with
    | some err => intro hok; simp at hok
    | none =>
      simp only
      rcases hbody : GetByID.body env1.faults id o s.beginTx with ⟨tx, o1, _ | err⟩
      · simp only [hset, Redis.Set]
        intro _ hlive
        simp only [Redis.lookup, List.find?_cons, decide_True] at hlive ⊢
        by_cases hlt : env2.now < env1.now + cacheTTL
        · simp only [hlt, if_true]
        · simp only [hlt, if_false] at hlive
          simp at hlive
      · intro hok; simp at hok

/-- The statement of C5 (amended) on the store that holds `sampleOrder`: a read
at instant 0 followed by a read one second later. -/
theorem C5_second_read_from_cache_witness :
    Postgres.GetByID (Postgres.GetByID storeWithSample emptyCache (quietAt 0) 1).1.1
        (Postgres.GetByID storeWithSample emptyCache (quietAt 0) 1).1.2
        (quietAt 1000000000) 1 =
      ((Postgres.GetByID storeWithSample emptyCache (quietAt 0) 1).1,
       (Postgres.GetByID storeWithSample emptyCache (quietAt 0) 1).2.1, none) :=
  C5_second_read_from_cache storeWithSample emptyCache (quietAt 0) (quietAt 1000000000) 1
    (by decide) rfl rfl (by decide)

/-- The iteration bound of `retryLoop` never cuts the loop short: once it
covers the attempts that the guard `attempt <= MaxRetries` still allows, a
larger bound gives the same run. -/
theorem retryLoop_bound_irrelevant (cfg : KafkaConfig) (env : WorkerEnv) (order : Order)
    (n : Nat) :
    ∀ (extra : Nat) (attempt : Int) (procErr : Option GoError) (w : Worker),
      (cfg.MaxRetries + 1 - attempt).toNat ≤ n →
      retryLoop cfg env order (n + extra) attempt procErr w =
        retryLoop cfg env order n attempt procErr w := by
  induction n with
  | zero =>
    intro extra attempt procErr w h
    have hgt : ¬ attempt ≤ cfg.MaxRetries := by omega
    cases extra with
    | zero => rfl
    | succ extra => simp [retryLoop, hgt]
  | succ n ih =>
    intro extra attempt procErr w h
    rw [show n + 1 + extra = (n + extra) + 1 by omega]
    unfold retryLoop
    by_cases hle : attempt ≤ cfg.MaxRetries
    · have hn : (cfg.MaxRetries + 1 - (attempt + 1)).toNat ≤ n := by omega
      simp only [hle, if_true]
      cases env.CreateOrder w.calls.length order with
      | none => rfl
      | some err =>
        simp only
        rw [ih extra (attempt + 1) (some err) _ hn, ih extra (attempt + 1) (some err) _ hn]
    · simp [hle]

theorem wrapInt64_of_fits (x : Int) (hlo : -2 ^ 63 ≤ x) (hhi : x < 2 ^ 63) :
    wrapInt64 x = x := by
  unfold wrapInt64
  omega

theorem wrapInt64_congr (x y : Int) (h : x % 2 ^ 64 = y % 2 ^ 64) :
    wrapInt64 x = wrapInt64 y := by
  unfold wrapInt64
  omega

theorem wrapInt64_emod (x : Int) : wrapInt64 x % 2 ^ 64 = x % 2 ^ 64 := by
  unfold wrapInt64
  omega

theorem backoff_eq (InitialBackoff : Int) (k : Nat) :
    backoff InitialBackoff (k : Int) = wrapInt64 (InitialBackoff * 2 ^ k) := by
  unfold backoff shiftLeftOne
  apply wrapInt64_congr
  by_cases hk : (k : Int) < 64
  · rw [if_pos hk, Int.toNat_ofNat, Int.mul_emod, wrapInt64_emod, ← Int.mul_emod]
  · rw [if_neg hk]
    have h64 : 64 ≤ k := by omega
    obtain ⟨d, rfl⟩ := Nat.exists_eq_add_of_le h64
    have : InitialBackoff * 2 ^ (64 + d) = (InitialBackoff * 2 ^ d) * 2 ^ 64 := by ring
    rw [this, Int.mul_emod_left]
    simp

theorem retryLoop_fail_step (cfg : KafkaConfig) (env : WorkerEnv) (order : Order) (n : Nat)
    (attempt : Int) (procErr : Option GoError) (w : Worker) (err : GoError)
    (hlt : attempt < cfg.MaxRetries)
    (hfail : env.CreateOrder w.calls.length order = some err)
    (hctx : env.cancelled w.waits.length = false) :
    retryLoop cfg env order (n + 1) attempt procErr w =
      retryLoop cfg env order n (attempt + 1) (some err)
        (w.afterFailures cfg.InitialBackoff order attempt 1) := by
  simp [retryLoop, hfail, hctx, hlt, le_of_lt hlt, Worker.afterFailures, List.range_succ]

theorem afterFailures_succ (w : Worker) (I : Int) (order : Order) (a : Int) (j : Nat) :
    (w.afterFailures I order a 1).afterFailures I order (a + 1) j =
      w.afterFailures I order a (j + 1) := by
  simp only [Worker.afterFailures, List.replicate_succ, List.range_succ_eq_map, List.map_cons,
    List.map_map, List.append_assoc, List.replicate_zero, List.range_zero, List.map_nil,
    List.singleton_append]
  congr 2
  · simp
    intro i _
    congr 1
    ring

theorem retryLoop_fail_iter (cfg : KafkaConfig) (env : WorkerEnv) (order : Order) (j : Nat) :
    ∀ (n : Nat) (a : Int) (procErr : Option GoError) (w : Worker) (errOf : Nat → GoError),
      a + (j : Int) ≤ cfg.MaxRetries →
      (∀ i, i < j → env.CreateOrder (w.calls.length + i) order = some (errOf i)) →
      (∀ i, i < j → env.cancelled (w.waits.length + i) = false) →
      retryLoop cfg env order (n + j) a procErr w =
        retryLoop cfg env order n (a + (j : Int))
          (if j = 0 then procErr else some (errOf (j - 1)))
          (w.afterFailures cfg.InitialBackoff order a j) := by
  induction j with
  | zero =>
    intro n a procErr w errOf _ _ _
    simp [Worker.afterFailures]
  | succ j ih =>
    intro n a procErr w errOf hle hfail hctx
    have h0 := hfail 0 (Nat.succ_pos j)
    have c0 := hctx 0 (Nat.succ_pos j)
    rw [Nat.add_zero] at h0 c0
    have hlt : a < cfg.MaxRetries := by push_cast at hle; omega
    rw [← Nat.add_assoc, retryLoop_fail_step cfg env order (n + j) a procErr w (errOf 0) hlt h0 c0]
    have hlen1 : (w.afterFailures cfg.InitialBackoff order a 1).calls.length = w.calls.length + 1 := by
      simp [Worker.afterFailures]
    have hlen2 : (w.afterFailures cfg.InitialBackoff order a 1).waits.length = w.waits.length + 1 := by
      simp [Worker.afterFailures]
    rw [ih n (a + 1) (some (errOf 0)) _ (fun i => errOf (i + 1))
      (by push_cast at hle; omega)
      (by intro i hi; rw [hlen1, Nat.add_assoc, Nat.add_comm 1 i]; exact hfail (i + 1) (by omega))
      (by intro i hi; rw [hlen2, Nat.add_assoc, Nat.add_comm 1 i]; exact hctx (i + 1) (by omega))]
    rw [afterFailures_succ]
    have e1 : a + 1 + (j : Int) = a + ((j + 1 : Nat) : Int) := by push_cast; ring
    rw [e1]
    congr 1
    cases j with
    | zero => simp
    | succ j => simp

theorem afterFailures_calls_length (w : Worker) (I : Int) (order : Order) (a : Int) (j : Nat) :
    (w.afterFailures I order a j).calls.length = w.calls.length + j := by
  simp [Worker.afterFailures]

theorem afterFailures_waits_length (w : Worker) (I : Int) (order : Order) (a : Int) (j : Nat) :
    (w.afterFailures I order a j).waits.length = w.waits.length + j := by
  simp [Worker.afterFailures]

theorem retryLoop_exhausted (cfg : KafkaConfig) (env : WorkerEnv) (order : Order) (w : Worker)
    (errOf : Nat → GoError) (m : Nat) (hM : cfg.MaxRetries = (m : Int))
    (hfail : ∀ i, i ≤ m → env.CreateOrder (w.calls.length + i) order = some (errOf i))
    (hctx : ∀ i, i < m → env.cancelled (w.waits.length + i) = false) :
    retryLoop cfg env order (cfg.MaxRetries + 1).toNat 0 none w =
      ({ (w.afterFailures cfg.InitialBackoff order 0 m) with
          calls := w.calls ++ List.replicate (m + 1) order },
       LoopExit.completed (some (errOf m))) := by
  have hn : (cfg.MaxRetries + 1).toNat = 1 + m := by rw [hM]; omega
  rw [hn, retryLoop_fail_iter cfg env order m 1 0 none w errOf (by rw [hM]; omega)
    (fun i hi => hfail i (le_of_lt hi)) hctx]
  have hlast := hfail m (le_refl m)
  rw [← afterFailures_calls_length w cfg.InitialBackoff order 0 m] at hlast
  have hatt : (0 : Int) + (m : Int) = cfg.MaxRetries := by rw [hM]; ring
  rw [hatt]
  simp only [retryLoop, le_refl, if_true, hlast, lt_irrefl, if_false]
  simp [Worker.afterFailures, List.replicate_succ']

theorem retryLoop_cancelled (cfg : KafkaConfig) (env : WorkerEnv) (order : Order) (w : Worker)
    (errOf : Nat → GoError) (k : Nat) (hk : (k : Int) < cfg.MaxRetries)
    (hfail : ∀ i, i ≤ k → env.CreateOrder (w.calls.length + i) order = some (errOf i))
    (hctx : ∀ i, i < k → env.cancelled (w.waits.length + i) = false)
    (hcan : env.cancelled (w.waits.length + k) = true) :
    retryLoop cfg env order (cfg.MaxRetries + 1).toNat 0 none w =
      (w.afterFailures cfg.InitialBackoff order 0 (k + 1), LoopExit.cancelled) := by
  obtain ⟨n, hn⟩ : ∃ n : Nat, (cfg.MaxRetries + 1).toNat = (n + 1) + k :=
    ⟨(cfg.MaxRetries + 1).toNat - 1 - k, by omega⟩
  rw [hn, retryLoop_fail_iter cfg env order k (n + 1) 0 none w errOf (by omega)
    (fun i hi => hfail i (le_of_lt hi)) hctx]
  have hlast := hfail k (le_refl k)
  rw [← afterFailures_calls_length w cfg.InitialBackoff order 0 k] at hlast
  rw [← afterFailures_waits_length w cfg.InitialBackoff order 0 k] at hcan
  have hlt : (0 : Int) + (k : Int) < cfg.MaxRetries := by omega
  simp only [retryLoop, le_of_lt hlt, if_true, hlast, hlt, hcan]
  simp [Worker.afterFailures, List.replicate_succ', List.range_succ]

theorem retryLoop_waits_extend (cfg : KafkaConfig) (env : WorkerEnv) (order : Order) (n : Nat) :
    ∀ (a : Int) (procErr : Option GoError) (w : Worker),
      ∃ l, (retryLoop cfg env order n a procErr w).1.waits = w.waits ++ l := by
  induction n with
  | zero => intro a procErr w; exact ⟨[], by simp [retryLoop]⟩
  | succ n ih =>
    intro a procErr w
    unfold retryLoop
    split
    · split
      · exact ⟨[], by simp⟩
      · split
        · split
          · exact ⟨[backoff cfg.InitialBackoff a], rfl⟩
          · obtain ⟨l, hl⟩ := ih (a + 1) (some ‹GoError›)
              { w with calls := w.calls ++ [order],
                       waits := w.waits ++ [backoff cfg.InitialBackoff a] }
            exact ⟨backoff cfg.InitialBackoff a :: l, by rw [hl]; simp⟩
        · exact ih _ _ _
    · exact ⟨[], by simp⟩

theorem finish_waits (close : Option GoError) (w : Worker) :
    (w.finish close).waits = w.waits := rfl

theorem recordErr_waits (w : Worker) (procErr : Option GoError) :
    (w.recordErr procErr).waits = w.waits := by
  cases procErr <;> rfl

theorem consumePartition_waits_extend (cfg : KafkaConfig) (env : WorkerEnv) (evs : List Recv) :
    ∀ w : Worker, ∃ l, (consumePartition cfg env evs w).waits = w.waits ++ l := by
  induction evs with
  | nil => intro w; exact ⟨[], by simp [consumePartition]⟩
  | cons ev rest ih =>
    intro w
    cases ev with
    | messagesClosed => exact ⟨[], by simp [consumePartition, finish_waits]⟩
    | errorsClosed => exact ⟨[], by simp [consumePartition, finish_waits]⟩
    | ctxDone => exact ⟨[], by simp [consumePartition, finish_waits]⟩
    | error err sent =>
      unfold consumePartition
      split
      · split
        · exact ih _
        · exact ⟨[], by simp⟩
      · exact ⟨[], by simp [finish_waits]⟩
    | message value =>
      unfold consumePartition
      split
      · exact ih w
      · split
        · exact ih w
        · split
          · rename_i w1 heq
            obtain ⟨l, hl⟩ := retryLoop_waits_extend cfg env ‹Order› (cfg.MaxRetries + 1).toNat 0 none w
            rw [heq] at hl
            exact ⟨l, by rw [finish_waits]; exact hl⟩
          · rename_i w1 procErr heq
            obtain ⟨l, hl⟩ := retryLoop_waits_extend cfg env ‹Order› (cfg.MaxRetries + 1).toNat 0 none w
            rw [heq] at hl
            obtain ⟨l2, hl2⟩ := ih (w1.recordErr procErr)
            exact ⟨l ++ l2, by rw [hl2, recordErr_waits]; simp at hl; rw [hl]; simp⟩

theorem getElem?_append_mid {α : Type} (xs ys l : List α) (b : α) (n : Nat)
    (h : n = xs.length + ys.length) : (xs ++ (ys ++ b :: l))[n]? = some b := by
  subst h
  rw [← List.append_assoc, List.getElem?_append_right (by simp)]
  simp

theorem retryLoop_wait_at (cfg : KafkaConfig) (env : WorkerEnv) (order : Order) (w : Worker)
    (errOf : Nat → GoError) (k : Nat) (hk : (k : Int) < cfg.MaxRetries)
    (hfail : ∀ i, i ≤ k → env.CreateOrder (w.calls.length + i) order = some (errOf i))
    (hctx : ∀ i, i < k → env.cancelled (w.waits.length + i) = false) :
    (retryLoop cfg env order (cfg.MaxRetries + 1).toNat 0 none w).1.waits[w.waits.length + k]? =
      some (backoff cfg.InitialBackoff k) := by
  by_cases hcan : env.cancelled (w.waits.length + k) = true
  · rw [retryLoop_cancelled cfg env order w errOf k hk hfail hctx hcan]
    simp only [Worker.afterFailures, List.range_succ, List.map_append, List.map_cons,
      List.map_nil, Int.zero_add]
    exact getElem?_append_mid _ _ [] _ _ (by simp)
  · have hcan2 : env.cancelled (w.waits.length + k) = false := by simpa using hcan
    obtain ⟨n, hn⟩ : ∃ n : Nat, (cfg.MaxRetries + 1).toNat = n + (k + 1) :=
      ⟨(cfg.MaxRetries + 1).toNat - (k + 1), by omega⟩
    rw [hn, retryLoop_fail_iter cfg env order (k + 1) n 0 none w errOf (by push_cast; omega)
      (fun i hi => hfail i (by omega)) (fun i hi => by
        rcases Nat.lt_succ_iff_lt_or_eq.mp hi with h | h
        · exact hctx i h
        · rw [h]; exact hcan2)]
    obtain ⟨l, hl⟩ := retryLoop_waits_extend cfg env order n (0 + ((k + 1 : Nat) : Int))
      (if k + 1 = 0 then none else some (errOf (k + 1 - 1)))
      (w.afterFailures cfg.InitialBackoff order 0 (k + 1))
    rw [hl]
    simp only [Worker.afterFailures, List.range_succ, List.map_append, List.map_cons,
      List.map_nil, Int.zero_add, List.append_assoc, List.singleton_append]
    exact getElem?_append_mid _ _ l _ _ (by simp)

/-! ## The partition worker -/

/-- With a negative `MaxRetries` the guard `attempt <= MaxRetries` fails at
once: a message that decodes and validates causes no `CreateOrder` call, no
wait and no entry in the shared error list, and the worker goes on. -/
theorem consumePartition_no_attempt (cfg : KafkaConfig) (env : WorkerEnv) (w : Worker)
    (value : Bytes) (order : Order) (rest : List Recv) (hM : cfg.MaxRetries < 0)
    (hdec : env.unmarshal value = some order) (hval : env.validate order = none) :
    consumePartition cfg env (Recv.message value :: rest) w = consumePartition cfg env rest w := by
  have hloop : retryLoop cfg env order (cfg.MaxRetries + 1).toNat 0 none w =
      (w, LoopExit.completed none) := by
    cases hn : (cfg.MaxRetries + 1).toNat with
    | zero => rfl
    | succ n =>
      have hgt : ¬ (0 : Int) ≤ cfg.MaxRetries := by omega
      simp [retryLoop, hgt]
  simp only [consumePartition, hdec, hval, hloop, Worker.recordErr]

/-- The statement of `consumePartition_no_attempt` at `MaxRetries = -1`. -/
theorem consumePartition_no_attempt_witness :
    consumePartition ⟨100000000, -1⟩ failingEnv
        (Recv.message sampleBytes :: [Recv.messagesClosed]) freshWorker =
      consumePartition ⟨100000000, -1⟩ failingEnv [Recv.messagesClosed] freshWorker :=
  consumePartition_no_attempt ⟨100000000, -1⟩ failingEnv freshWorker sampleBytes sampleOrder
    [Recv.messagesClosed] (by decide) rfl rfl

/-- C7 as stated fails: at `MaxRetries = -2`, a value that the configuration
accepts, a message that decodes and validates and whose `CreateOrder` would
fail on every attempt is passed to `CreateOrder` zero times, which is not
`MaxRetries + 1`. -/
theorem C7_counterexample :
    failingEnv.unmarshal sampleBytes = some sampleOrder ∧
    failingEnv.validate sampleOrder = none ∧
    (∀ n : Nat, (failingEnv.CreateOrder n sampleOrder).isSome = true) ∧
    (∀ n : Nat, failingEnv.cancelled n = false) ∧
    (consumePartition ⟨100000000, -2⟩ failingEnv [Recv.message sampleBytes] freshWorker).calls =
      [] ∧
    ¬ ∃ n : Nat, (n : Int) = (-2 : Int) + 1 ∧
      (consumePartition ⟨100000000, -2⟩ failingEnv [Recv.message sampleBytes]
        freshWorker).calls = freshWorker.calls ++ List.replicate n sampleOrder := by
  refine ⟨rfl, rfl, fun _ => rfl, fun _ => rfl, by decide, ?_⟩
  rintro ⟨n, hn, _⟩
  omega

/-- C7 (amended): for every `MaxRetries` from -1 on, a message that decodes
and validates, whose `CreateOrder` fails on every attempt without
cancellation, is passed to `CreateOrder` exactly `MaxRetries + 1` times. -/
theorem C7_retry_bound (cfg : KafkaConfig) (env : WorkerEnv) (w : Worker) (value : Bytes)
    (order : Order) (hM : -1 ≤ cfg.MaxRetries)
    (hdec : env.unmarshal value = some order) (hval : env.validate order = none)
    (hfail : ∀ i : Nat, (i : Int) ≤ cfg.MaxRetries →
      (env.CreateOrder (w.calls.length + i) order).isSome = true)
    (hctx : ∀ i : Nat, (i : Int) < cfg.MaxRetries → env.cancelled (w.waits.length + i) = false) :
    ∃ n : Nat, (n : Int) = cfg.MaxRetries + 1 ∧
      (consumePartition cfg env [Recv.message value] w).calls =
        w.calls ++ List.replicate n order := by
  refine ⟨(cfg.MaxRetries + 1).toNat, by omega, ?_⟩
  by_cases hneg : cfg.MaxRetries = -1
  · simp [consumePartition, hdec, hval, hneg, retryLoop, Worker.recordErr]
  · obtain ⟨m, hm⟩ : ∃ m : Nat, cfg.MaxRetries = (m : Int) := ⟨cfg.MaxRetries.toNat, by omega⟩
    have hfail2 : ∀ i, i ≤ m → env.CreateOrder (w.calls.length + i) order =
        some ((env.CreateOrder (w.calls.length + i) order).getD GoError.ErrNotFound) := by
      intro i hi
      have h := hfail i (by omega)
      obtain ⟨e, he⟩ := Option.isSome_iff_exists.mp h
      rw [he]; rfl
    have hloop := retryLoop_exhausted cfg env order w
      (fun i => (env.CreateOrder (w.calls.length + i) order).getD GoError.ErrNotFound) m hm hfail2
      (fun i hi => hctx i (by omega))
    have hn : (cfg.MaxRetries + 1).toNat = m + 1 := by omega
    rw [hn] at hloop
    simp only [consumePartition, hdec, hval, hn, hloop]
    simp [Worker.recordErr]

/-- The statement of C7 at `MaxRetries = 3`: four calls. -/
theorem C7_retry_bound_witness :
    ∃ n : Nat, (n : Int) = (3 : Int) + 1 ∧
      (consumePartition ⟨100000000, 3⟩ failingEnv [Recv.message sampleBytes] freshWorker).calls =
        freshWorker.calls ++ List.replicate n sampleOrder :=
  C7_retry_bound ⟨100000000, 3⟩ failingEnv freshWorker sampleBytes sampleOrder (by decide)
    rfl rfl (fun _ _ => rfl) (fun _ _ => rfl)

/-- C8: when attempts 0 to k of a message fail (k below `MaxRetries`) and no
earlier wait was cancelled, the wait started after failed attempt k is the
value of `InitialBackoff * time.Duration(1<<attempt)` at attempt k, which is
`InitialBackoff * 2^k` in signed 64-bit arithmetic, and is exactly
`InitialBackoff * 2^k` whenever that product fits in 64 bits. -/
theorem C8_backoff_value (cfg : KafkaConfig) (env : WorkerEnv) (w : Worker) (value : Bytes)
    (order : Order) (rest : List Recv) (errOf : Nat → GoError) (k : Nat)
    (hk : (k : Int) < cfg.MaxRetries)
    (hdec : env.unmarshal value = some order) (hval : env.validate order = none)
    (hfail : ∀ i, i ≤ k → env.CreateOrder (w.calls.length + i) order = some (errOf i))
    (hctx : ∀ i, i < k → env.cancelled (w.waits.length + i) = false) :
    (consumePartition cfg env (Recv.message value :: rest) w).waits[w.waits.length + k]? =
        some (backoff cfg.InitialBackoff k) ∧
      backoff cfg.InitialBackoff k = wrapInt64 (cfg.InitialBackoff * 2 ^ k) ∧
      (-2 ^ 63 ≤ cfg.InitialBackoff * 2 ^ k → cfg.InitialBackoff * 2 ^ k < 2 ^ 63 →
        (consumePartition cfg env (Recv.message value :: rest) w).waits[w.waits.length + k]? =
          some (cfg.InitialBackoff * 2 ^ k)) := by
  have hat := retryLoop_wait_at cfg env order w errOf k hk hfail hctx
  have main : (consumePartition cfg env (Recv.message value :: rest) w).waits[w.waits.length + k]? =
      some (backoff cfg.InitialBackoff k) := by
    have hlt : w.waits.length + k <
        (retryLoop cfg env order (cfg.MaxRetries + 1).toNat 0 none w).1.waits.length := by
      by_contra hcon
      rw [List.getElem?_eq_none (by omega)] at hat
      exact Option.noConfusion hat
    simp only [consumePartition, hdec, hval]
    split
    · rename_i w1 heq
      rw [heq] at hat
      rw [finish_waits]; exact hat
    · rename_i w1 procErr heq
      rw [heq] at hat hlt
      obtain ⟨l, hl⟩ := consumePartition_waits_extend cfg env rest (w1.recordErr procErr)
      rw [hl, recordErr_waits, List.getElem?_append_left hlt]
      exact hat
  refine ⟨main, backoff_eq cfg.InitialBackoff k, ?_⟩
  intro hlo hhi
  rw [main, backoff_eq, wrapInt64_of_fits _ hlo hhi]

/-- The statement of C8 at `InitialBackoff = 100ms`, `MaxRetries = 3`, after
the failed attempt 2: the wait is 400ms. -/
theorem C8_backoff_value_witness :
    (consumePartition ⟨100000000, 3⟩ failingEnv [Recv.message sampleBytes]
        freshWorker).waits[freshWorker.waits.length + 2]? = some (backoff 100000000 2) ∧
      backoff 100000000 2 = wrapInt64 (100000000 * 2 ^ 2) ∧
      (-2 ^ 63 ≤ (100000000 : Int) * 2 ^ 2 → (100000000 : Int) * 2 ^ 2 < 2 ^ 63 →
        (consumePartition ⟨100000000, 3⟩ failingEnv [Recv.message sampleBytes]
          freshWorker).waits[freshWorker.waits.length + 2]? = some (100000000 * 2 ^ 2)) :=
  C8_backoff_value ⟨100000000, 3⟩ failingEnv freshWorker sampleBytes sampleOrder []
    (fun _ => GoError.other "connection refused") 2 (by decide) rfl rfl
    (fun _ _ => rfl) (fun _ _ => rfl)

/-- C10: when the context is cancelled during the backoff that follows failed
attempt k (k below `MaxRetries`), the worker has made k + 1 calls for the
message and makes no other, appends nothing for the message to the shared
error list (only a failure of `pc.Close()` is appended), closes the partition
handle and returns; what the partition would deliver next is not consumed. -/
theorem C10_cancel_during_backoff (cfg : KafkaConfig) (env : WorkerEnv) (w : Worker)
    (value : Bytes) (order : Order) (rest : List Recv) (errOf : Nat → GoError) (k : Nat)
    (hk : (k : Int) < cfg.MaxRetries)
    (hdec : env.unmarshal value = some order) (hval : env.validate order = none)
    (hfail : ∀ i, i ≤ k → env.CreateOrder (w.calls.length + i) order = some (errOf i))
    (hctx : ∀ i, i < k → env.cancelled (w.waits.length + i) = false)
    (hcan : env.cancelled (w.waits.length + k) = true) :
    consumePartition cfg env (Recv.message value :: rest) w =
      { calls := w.calls ++ List.replicate (k + 1) order,
        waits := w.waits ++
          (List.range (k + 1)).map (fun (i : Nat) => backoff cfg.InitialBackoff i),
        errs := match env.close with
          | some err => w.errs ++ [err]
          | none => w.errs,
        errChan := w.errChan,
        closed := true,
        returned := true } := by
  have hloop := retryLoop_cancelled cfg env order w errOf k hk hfail hctx hcan
  simp only [consumePartition, hdec, hval, hloop]
  simp [Worker.finish, Worker.afterFailures]

/-- The statement of C10 at `MaxRetries = 5`, cancelled during the wait after
failed attempt 2, with another message pending. -/
theorem C10_cancel_during_backoff_witness :
    consumePartition ⟨100000000, 5⟩ cancellingEnv
        (Recv.message sampleBytes :: [Recv.message sampleBytes]) freshWorker =
      { calls := freshWorker.calls ++ List.replicate (2 + 1) sampleOrder,
        waits := freshWorker.waits ++
          (List.range (2 + 1)).map (fun (i : Nat) => backoff 100000000 i),
        errs := match cancellingEnv.close with
          | some err => freshWorker.errs ++ [err]
          | none => freshWorker.errs,
        errChan := freshWorker.errChan,
        closed := true,
        returned := true } :=
  C10_cancel_during_backoff ⟨100000000, 5⟩ cancellingEnv freshWorker sampleBytes sampleOrder
    [Recv.message sampleBytes] (fun _ => GoError.other "connection refused") 2 (by decide)
    rfl rfl (fun _ _ => rfl) (fun i hi => by
      have h2 : i ≠ 2 := by omega
      simp [cancellingEnv, freshWorker, h2]) (by simp [cancellingEnv, freshWorker])

/-! ## Lemmas on the validator -/

theorem checkTags_nil_iff (field : String) (tags : List (String × Bool)) :
    checkTags field tags = [] ↔ ∀ t, t ∈ tags → t.2 = true := by
  unfold checkTags
  cases h : tags.find? (fun t => !t.2) with
  | none =>
    simp only [true_iff]
    intro t ht
    have := List.find?_eq_none.mp h t ht
    simpa using this
  | some t =>
    simp only [List.cons_ne_nil, false_iff]
    intro hall
    have hmem := List.mem_of_find?_eq_some h
    have hprop := List.find?_some h
    rw [hall t hmem] at hprop
    simp at hprop

theorem Payment_validate_nil_iff (ns : String) (p : Payment) :
    Payment.validate ns p = [] ↔
      (p.Transaction ≠ "" ∧ (p.Currency ≠ "" ∧ p.Currency.length = 3) ∧ p.Provider ≠ "" ∧
       (p.Amount ≠ 0 ∧ 0 ≤ p.Amount) ∧ p.PaymentDt ≠ 0 ∧ p.Bank ≠ "" ∧
       (p.DeliveryCost ≠ 0 ∧ 0 ≤ p.DeliveryCost) ∧ (p.GoodsTotal ≠ 0 ∧ 0 ≤ p.GoodsTotal)) := by
  simp only [Payment.validate, List.append_eq_nil, checkTags_nil_iff, List.mem_cons,
    List.mem_singleton, List.mem_nil_iff, or_false, forall_eq_or_imp, forall_eq, requiredString,
    requiredInt, minZero, lenIs, Bool.not_eq_true', decide_eq_false_iff_not, decide_eq_true_eq,
    and_assoc]

theorem Delivery_validate_nil_iff (isEmail : String → Bool) (ns : String) (d : Delivery) :
    Delivery.validate isEmail ns d = [] ↔
      (d.Name ≠ "" ∧ (d.Phone ≠ "" ∧ e164 d.Phone = true) ∧ (d.Zip ≠ "" ∧ d.Zip.length = 7) ∧
       d.City ≠ "" ∧ d.Address ≠ "" ∧ d.Region ≠ "" ∧
       (d.Email ≠ "" ∧ isEmail d.Email = true)) := by
  simp only [Delivery.validate, List.append_eq_nil, checkTags_nil_iff, List.mem_cons,
    List.mem_singleton, List.mem_nil_iff, or_false, forall_eq_or_imp, forall_eq, requiredString,
    lenIs, Bool.not_eq_true', decide_eq_false_iff_not, decide_eq_true_eq, and_assoc]

theorem Items_validate_nil_iff (ns : String) (it : Items) :
    Items.validate ns it = [] ↔
      (it.ChrtID ≠ 0 ∧ (it.Price ≠ 0 ∧ 0 ≤ it.Price) ∧ it.Rid ≠ "" ∧ it.Name ≠ "" ∧
       (0 ≤ it.Sale ∧ it.Sale ≤ 100) ∧ (it.TotalPrice ≠ 0 ∧ 0 ≤ it.TotalPrice) ∧
       it.NmID ≠ 0 ∧ it.Brand ≠ "") := by
  simp only [Items.validate, List.append_eq_nil, checkTags_nil_iff, List.mem_cons,
    List.mem_singleton, List.mem_nil_iff, or_false, forall_eq_or_imp, forall_eq, requiredString,
    requiredInt, minZero, maxHundred, Bool.not_eq_true', decide_eq_false_iff_not,
    decide_eq_true_eq, and_assoc]

theorem diveItems_nil_iff (items : List Items) :
    ∀ i : Nat, diveItems items i = [] ↔ ∀ it, it ∈ items → Items.validate "" it = [] := by
  induction items with
  | nil => intro i; simp [diveItems]
  | cons it rest ih =>
    intro i
    simp only [diveItems, List.append_eq_nil, ih (i + 1), List.mem_cons, forall_eq_or_imp]
    rw [Items_validate_nil_iff, Items_validate_nil_iff]

theorem Struct_nil_iff (isEmail : String → Bool) (itemsNil : Bool) (o : Order) :
    Struct isEmail itemsNil o = [] ↔
      (o.Entry ≠ "" ∧ Payment.validate "" o.Payment = [] ∧
       ((itemsNil && o.Items.isEmpty) = false ∧ ∀ it, it ∈ o.Items → Items.validate "" it = []) ∧
       o.Locale ≠ "" ∧ o.CustomerID ≠ "" ∧ o.TrackNumber ≠ "" ∧ o.DeliveryService ≠ "" ∧
       o.Shardkey ≠ "" ∧ o.SmID ≠ 0 ∧ Delivery.validate isEmail "" o.Delivery = []) := by
  have hitems : validateItems itemsNil o.Items = [] ↔
      ((itemsNil && o.Items.isEmpty) = false ∧
        ∀ it, it ∈ o.Items → Items.validate "" it = []) := by
    unfold validateItems
    cases hc : (itemsNil && o.Items.isEmpty) with
    | true => simp
    | false => simp [diveItems_nil_iff]
  simp only [Struct, List.append_eq_nil, hitems, checkTags_nil_iff, List.mem_singleton,
    forall_eq, requiredString, requiredInt, Bool.not_eq_true', decide_eq_false_iff_not,
    and_assoc]
  rw [Payment_validate_nil_iff "Order.Payment.", Payment_validate_nil_iff "",
    Delivery_validate_nil_iff isEmail "Order.Delivery.", Delivery_validate_nil_iff isEmail ""]

/-! ## The validator -/

/-- C11 as stated fails: an Order that is valid except for an empty
`order_uid`, one whose item has an empty `size`, and one whose item has no
`sale` all pass the validation, since `OrderUID` and `Size` carry no tag and
`Sale` carries no `required`. -/
theorem C11_counterexample :
    (Spec.missingRequired { sampleOrder with OrderUID := "" } = true ∧
      Struct sampleIsEmail false { sampleOrder with OrderUID := "" } = []) ∧
    (Spec.missingRequired
        { sampleOrder with Items := sampleOrder.Items.map (fun it => { it with Size := "" }) }
        = true ∧
      Struct sampleIsEmail false
        { sampleOrder with Items := sampleOrder.Items.map (fun it => { it with Size := "" }) }
        = []) ∧
    (Spec.missingRequired
        { sampleOrder with Items := sampleOrder.Items.map (fun it => { it with Sale := 0 }) }
        = true ∧
      Struct sampleIsEmail false
        { sampleOrder with Items := sampleOrder.Items.map (fun it => { it with Sale := 0 }) }
        = []) := by
  decide

/-- C11 (amended): an Order in which a field tagged `required` is missing or
empty (entry, locale, customer id, track number, delivery service, shard key,
sm-id, any Payment field, any Delivery field, or chrt_id, price, rid, name,
total price, nm_id or brand of any item) is rejected by the validator. -/
theorem C11_required_fields_rejected (isEmail : String → Bool) (itemsNil : Bool) (o : Order)
    (hmiss : missingTagged o = true) : Struct isEmail itemsNil o ≠ [] := by
  intro hnil
  rw [Struct_nil_iff, Payment_validate_nil_iff, Delivery_validate_nil_iff] at hnil
  obtain ⟨h1, ⟨p1, ⟨p2, _⟩, p3, ⟨p4, _⟩, p5, p6, ⟨p7, _⟩, p8, _⟩, ⟨_, hit⟩, h2, h3, h4, h5, h6,
    h7, d1, ⟨d2, _⟩, ⟨d3, _⟩, d4, d5, d6, d7, _⟩ := hnil
  have hitems : o.Items.any (fun it =>
      decide (it.ChrtID = 0) || decide (it.Price = 0) || decide (it.Rid = "") ||
      decide (it.Name = "") || decide (it.TotalPrice = 0) || decide (it.NmID = 0) ||
      decide (it.Brand = "")) = false := by
    rw [List.any_eq_false]
    intro it hmem
    have := (Items_validate_nil_iff "" it).mp (hit it hmem)
    obtain ⟨i1, ⟨i2, _⟩, i3, i4, _, ⟨i5, _⟩, i6, i7⟩ := this
    simp [i1, i2, i3, i4, i5, i6, i7]
  unfold missingTagged at hmiss
  rw [hitems] at hmiss
  simp [h1, h2, h3, h4, h5, h6, h7, p1, p2, p3, p4, p5, p6, p7, p8, d1, d2, d3, d4, d5, d6, d7]
    at hmiss

/-- The statement of C11 (amended) on the sample order without its payment
amount. -/
theorem C11_required_fields_rejected_witness :
    Struct sampleIsEmail false
      { sampleOrder with Payment := { sampleOrder.Payment with Amount := 0 } } ≠ [] :=
  C11_required_fields_rejected sampleIsEmail false
    { sampleOrder with Payment := { sampleOrder.Payment with Amount := 0 } } (by decide)

/-- C18 as stated fails: the sample order is valid, and with a payment amount,
a delivery cost, a goods total, an item price or an item total price of 0 it
is rejected, on the tag `required`. -/
theorem C18_counterexample :
    Struct sampleIsEmail false sampleOrder = [] ∧
    Struct sampleIsEmail false
        { sampleOrder with Payment := { sampleOrder.Payment with Amount := 0 } } =
      [⟨"Order.Payment.Amount", "required"⟩] ∧
    Struct sampleIsEmail false
        { sampleOrder with Payment := { sampleOrder.Payment with DeliveryCost := 0 } } =
      [⟨"Order.Payment.DeliveryCost", "required"⟩] ∧
    Struct sampleIsEmail false
        { sampleOrder with Payment := { sampleOrder.Payment with GoodsTotal := 0 } } =
      [⟨"Order.Payment.GoodsTotal", "required"⟩] ∧
    Struct sampleIsEmail false
        { sampleOrder with Items := sampleOrder.Items.map (fun it => { it with Price := 0 }) } =
      [⟨"Order.Items[0].Price", "required"⟩] ∧
    Struct sampleIsEmail false
        { sampleOrder with
          Items := sampleOrder.Items.map (fun it => { it with TotalPrice := 0 }) } =
      [⟨"Order.Items[0].TotalPrice", "required"⟩] := by
  decide

theorem nonzero_nonneg_iff (v : Int) : (v ≠ 0 ∧ 0 ≤ v) ↔ 1 ≤ v := by
  omega

theorem items_valid_replace (pre post : List Items) (it it2 : Items)
    (h : ∀ x, x ∈ pre ++ it :: post → Items.validate "" x = []) :
    (∀ x, x ∈ pre ++ it2 :: post → Items.validate "" x = []) ↔ Items.validate "" it2 = [] := by
  constructor
  · intro h2
    exact h2 it2 (by simp)
  · intro h2 x hx
    rcases List.mem_append.mp hx with hx | hx
    · exact h x (by simp [hx])
    · rcases List.mem_cons.mp hx with hx | hx
      · rw [hx]; exact h2
      · exact h x (by simp [hx])

/-- C18 (amended): for an Order that is valid, replacing the payment amount,
the delivery cost, the goods total, the price of an item or the total price
of an item by `v` leaves it valid if and only if `v` is at least 1 (the tags
`required,min=0` reject 0 and the negative values), and replacing the sale of
an item by `v` leaves it valid if and only if `v` is from 0 to 100. -/
theorem C18_numeric_bounds (isEmail : String → Bool) (itemsNil : Bool) (o : Order) (v : Int)
    (hvalid : Struct isEmail itemsNil o = []) :
    (Struct isEmail itemsNil { o with Payment := { o.Payment with Amount := v } } = [] ↔
      1 ≤ v) ∧
    (Struct isEmail itemsNil { o with Payment := { o.Payment with DeliveryCost := v } } = [] ↔
      1 ≤ v) ∧
    (Struct isEmail itemsNil { o with Payment := { o.Payment with GoodsTotal := v } } = [] ↔
      1 ≤ v) ∧
    (∀ (pre post : List Items) (it : Items), o.Items = pre ++ it :: post →
      (Struct isEmail itemsNil { o with Items := pre ++ { it with Price := v } :: post } = [] ↔
        1 ≤ v) ∧
      (Struct isEmail itemsNil
          { o with Items := pre ++ { it with TotalPrice := v } :: post } = [] ↔ 1 ≤ v) ∧
      (Struct isEmail itemsNil { o with Items := pre ++ { it with Sale := v } :: post } = [] ↔
        (0 ≤ v ∧ v ≤ 100))) := by
  have hv := (Struct_nil_iff isEmail itemsNil o).mp hvalid
  obtain ⟨h1, hp, ⟨hnilItems, hit⟩, h2, h3, h4, h5, h6, h7, hd⟩ := hv
  have hp2 := (Payment_validate_nil_iff "" o.Payment).mp hp
  obtain ⟨p1, p2, p3, p4, p5, p6, p7, p8⟩ := hp2
  refine ⟨?_, ?_, ?_, ?_⟩
  · rw [Struct_nil_iff, Payment_validate_nil_iff, ← nonzero_nonneg_iff]
    simp only
    constructor
    · intro h; exact h.2.1.2.2.2.1
    · intro h
      exact ⟨h1, ⟨p1, p2, p3, h, p5, p6, p7, p8⟩, ⟨hnilItems, hit⟩, h2, h3, h4, h5, h6, h7, hd⟩
  · rw [Struct_nil_iff, Payment_validate_nil_iff, ← nonzero_nonneg_iff]
    simp only
    constructor
    · intro h; exact h.2.1.2.2.2.2.2.2.1
    · intro h
      exact ⟨h1, ⟨p1, p2, p3, p4, p5, p6, h, p8⟩, ⟨hnilItems, hit⟩, h2, h3, h4, h5, h6, h7, hd⟩
  · rw [Struct_nil_iff, Payment_validate_nil_iff, ← nonzero_nonneg_iff]
    simp only
    constructor
    · intro h; exact h.2.1.2.2.2.2.2.2.2
    · intro h
      exact ⟨h1, ⟨p1, p2, p3, p4, p5, p6, p7, h⟩, ⟨hnilItems, hit⟩, h2, h3, h4, h5, h6, h7, hd⟩
  · intro pre post it hitems
    rw [hitems] at hit
    have hthis := (Items_validate_nil_iff "" it).mp (hit it (by simp))
    obtain ⟨i1, i2, i3, i4, i5, i6, i7, i8⟩ := hthis
    have hne : ∀ it2 : Items, (itemsNil && (pre ++ it2 :: post).isEmpty) = false := by
      intro it2
      cases pre <;> simp
    have hrest : ∀ it2 : Items,
        Struct isEmail itemsNil { o with Items := pre ++ it2 :: post } = [] ↔
          Items.validate "" it2 = [] := by
      intro it2
      rw [Struct_nil_iff]
      simp only
      rw [items_valid_replace pre post it it2 hit]
      constructor
      · intro h; exact h.2.2.1.2
      · intro h; exact ⟨h1, hp, ⟨hne it2, h⟩, h2, h3, h4, h5, h6, h7, hd⟩
    refine ⟨?_, ?_, ?_⟩
    · rw [hrest, Items_validate_nil_iff, ← nonzero_nonneg_iff]
      simp only
      constructor
      · intro h; exact h.2.1
      · intro h; exact ⟨i1, h, i3, i4, i5, i6, i7, i8⟩
    · rw [hrest, Items_validate_nil_iff, ← nonzero_nonneg_iff]
      simp only
      constructor
      · intro h; exact h.2.2.2.2.2.1
      · intro h; exact ⟨i1, i2, i3, i4, i5, h, i7, i8⟩
    · rw [hrest, Items_validate_nil_iff]
      simp only
      constructor
      · intro h; exact h.2.2.2.2.1
      · intro h; exact ⟨i1, i2, i3, i4, h, i6, i7, i8⟩

/-- The statement of C18 (amended) on the sample order and the value 0. -/
theorem C18_numeric_bounds_witness :
    (Struct sampleIsEmail false
        { sampleOrder with Payment := { sampleOrder.Payment with Amount := 0 } } = [] ↔
      1 ≤ (0 : Int)) ∧
    (Struct sampleIsEmail false
        { sampleOrder with Payment := { sampleOrder.Payment with DeliveryCost := 0 } } = [] ↔
      1 ≤ (0 : Int)) ∧
    (Struct sampleIsEmail false
        { sampleOrder with Payment := { sampleOrder.Payment with GoodsTotal := 0 } } = [] ↔
      1 ≤ (0 : Int)) ∧
    (∀ (pre post : List Items) (it : Items), sampleOrder.Items = pre ++ it :: post →
      (Struct sampleIsEmail false
          { sampleOrder with Items := pre ++ { it with Price := 0 } :: post } = [] ↔
        1 ≤ (0 : Int)) ∧
      (Struct sampleIsEmail false
          { sampleOrder with Items := pre ++ { it with TotalPrice := 0 } :: post } = [] ↔
        1 ≤ (0 : Int)) ∧
      (Struct sampleIsEmail false
          { sampleOrder with Items := pre ++ { it with Sale := 0 } :: post } = [] ↔
        (0 ≤ (0 : Int) ∧ (0 : Int) ≤ 100))) :=
  C18_numeric_bounds sampleIsEmail false sampleOrder 0 (by decide)

/-! ## Skipped messages -/

theorem retryLoop_first_success (cfg : KafkaConfig) (env : WorkerEnv) (order : Order)
    (w : Worker) (hM : 0 ≤ cfg.MaxRetries)
    (hok : env.CreateOrder w.calls.length order = none) :
    retryLoop cfg env order (cfg.MaxRetries + 1).toNat 0 none w =
      ({ w with calls := w.calls ++ [order] }, LoopExit.completed none) := by
  obtain ⟨n, hn⟩ : ∃ n : Nat, (cfg.MaxRetries + 1).toNat = n + 1 :=
    ⟨cfg.MaxRetries.toNat, by omega⟩
  rw [hn]
  simp [retryLoop, hM, hok]

theorem consumePartition_skip (cfg : KafkaConfig) (env : WorkerEnv) (w : Worker)
    (value : Bytes) (rest : List Recv) (hskip : decodeValid env value = none) :
    consumePartition cfg env (Recv.message value :: rest) w = consumePartition cfg env rest w := by
  unfold decodeValid at hskip
  cases hu : env.unmarshal value with
  | none => simp only [consumePartition, hu]
  | some order =>
    rw [hu] at hskip
    simp only at hskip
    cases hv : env.validate order with
    | some err => simp only [consumePartition, hu, hv]
    | none => rw [hv] at hskip; simp at hskip

theorem consumePartition_messages (cfg : KafkaConfig) (env : WorkerEnv)
    (hM : 0 ≤ cfg.MaxRetries) (hok : ∀ n order, env.CreateOrder n order = none)
    (values : List Bytes) :
    ∀ w : Worker, consumePartition cfg env (values.map Recv.message) w =
      { w with calls := w.calls ++ values.filterMap (decodeValid env) } := by
  induction values with
  | nil => intro w; simp [consumePartition]
  | cons value rest ih =>
    intro w
    rw [List.map_cons]
    cases hd : decodeValid env value with
    | none =>
      rw [consumePartition_skip cfg env w value _ hd, ih w, List.filterMap_cons, hd]
    | some order =>
      have hu : env.unmarshal value = some order ∧ env.validate order = none := by
        unfold decodeValid at hd
        cases hu : env.unmarshal value with
        | none => rw [hu] at hd; simp at hd
        | some o2 =>
          rw [hu] at hd
          simp only at hd
          cases hv : env.validate o2 with
          | some err => rw [hv] at hd; simp at hd
          | none =>
            rw [hv] at hd
            simp only [Option.some.injEq] at hd
            rw [← hd]
            exact ⟨rfl, hv⟩
      simp only [consumePartition, hu.1, hu.2,
        retryLoop_first_success cfg env order w hM (hok _ _), Worker.recordErr]
      rw [ih, List.filterMap_cons, hd]
      simp

/-- C12 as stated fails: at `MaxRetries = -1`, a value that the configuration
accepts, with a `CreateOrder` that always succeeds and no cancellation, the
sample message decodes and validates and yet no Order is passed to
`CreateOrder`. -/
theorem C12_counterexample :
    decodeValid validatingEnv sampleBytes = some sampleOrder ∧
    (∀ (n : Nat) (order : Order), validatingEnv.CreateOrder n order = none) ∧
    (∀ n : Nat, validatingEnv.cancelled n = false) ∧
    [sampleBytes].filterMap (decodeValid validatingEnv) = [sampleOrder] ∧
    (consumePartition ⟨100000000, -1⟩ validatingEnv ([sampleBytes].map Recv.message)
      freshWorker).calls = [] := by
  refine ⟨by decide, fun _ _ => rfl, fun _ => rfl, by decide, by decide⟩

/-- C12 (amended): a message whose payload does not decode or whose Order
does not validate causes no `CreateOrder` call and no entry in the shared
error list, and the worker goes on with the next message; and when
`MaxRetries` is not negative (so that an attempt is made) and `CreateOrder`
always succeeds, the Orders passed to `CreateOrder` for a sequence of
delivered messages are exactly the decodable, valid ones, in delivery order,
with nothing else changed in the worker. -/
theorem C12_invalid_messages_skipped (cfg : KafkaConfig) (env : WorkerEnv) :
    (∀ (w : Worker) (value : Bytes) (rest : List Recv), decodeValid env value = none →
      consumePartition cfg env (Recv.message value :: rest) w =
        consumePartition cfg env rest w) ∧
    (0 ≤ cfg.MaxRetries → (∀ n order, env.CreateOrder n order = none) →
      ∀ (w : Worker) (values : List Bytes),
        consumePartition cfg env (values.map Recv.message) w =
          { w with calls := w.calls ++ values.filterMap (decodeValid env) }) :=
  ⟨fun w value rest h => consumePartition_skip cfg env w value rest h,
   fun hM hok w values => consumePartition_messages cfg env hM hok values w⟩

/-- The statement of C12 for a malformed payload, a payload that decodes to an
Order without `entry`, and the sample payload, in this order. -/
theorem C12_invalid_messages_skipped_witness :
    consumePartition ⟨100000000, 3⟩ validatingEnv
        ([[1], [2], sampleBytes].map Recv.message) freshWorker =
      { freshWorker with
        calls := freshWorker.calls ++
          [[1], [2], sampleBytes].filterMap (decodeValid validatingEnv) } :=
  (C12_invalid_messages_skipped ⟨100000000, 3⟩ validatingEnv).2 (by decide)
    (fun _ _ => rfl) freshWorker [[1], [2], sampleBytes]

/-! ## Errors and their causes -/

theorem Is_wrap_of_Is (message : String) (err target : GoError)
    (h : err.Is target = true) : (Wrap message err).Is target = true := by
  simp [Wrap, GoError.Is, h]

theorem Is_refl (err : GoError) : err.Is err = true := by
  cases err <;> simp [GoError.Is]

theorem Is_wrapAll (messages : List String) (err target : GoError)
    (h : err.Is target = true) : (wrapAll messages err).Is target = true := by
  induction messages with
  | nil => exact h
  | cons m rest ih => exact Is_wrap_of_Is m _ target ih

/-- C17: `Wrap(m, err)` has the text of `m`, a colon and a space, and the text
of `err`; whatever `errors.Is` finds in `err` it finds in `Wrap(m, err)`; so
`ErrNotFound` wrapped any number of times with any messages is still found,
and an error of the repository is still found in what `service.CreateOrder`
returns. -/
theorem C17_wrap_preserves_cause (message : String) (err target : GoError) :
    (Wrap message err).Error = message ++ ": " ++ err.Error ∧
    (err.Is target = true → (Wrap message err).Is target = true) ∧
    (∀ messages : List String, (wrapAll messages ErrNotFound).Is ErrNotFound = true) ∧
    (∀ (repoCreate : Order → Int × Option GoError) (order : Order) (id : Int),
      repoCreate order = (id, some err) → err.Is target = true →
      ∃ err2, Service.CreateOrder repoCreate order = (0, some err2) ∧
        err2.Is target = true) := by
  refine ⟨rfl, Is_wrap_of_Is message err target, ?_, ?_⟩
  · intro messages
    exact Is_wrapAll messages ErrNotFound ErrNotFound (Is_refl ErrNotFound)
  · intro repoCreate order id hrepo his
    refine ⟨Wrap "service.CreateOrder" err, ?_, Is_wrap_of_Is _ err target his⟩
    simp [Service.CreateOrder, hrepo]

/-- The statement of C17 for a not-found error wrapped by the storage layer. -/
theorem C17_wrap_preserves_cause_witness :
    (Wrap "storage.pg.GetByUID.Order" ErrNotFound).Error =
        "storage.pg.GetByUID.Order" ++ ": " ++ ErrNotFound.Error ∧
    (ErrNotFound.Is ErrNotFound = true →
      (Wrap "storage.pg.GetByUID.Order" ErrNotFound).Is ErrNotFound = true) ∧
    (∀ messages : List String, (wrapAll messages ErrNotFound).Is ErrNotFound = true) ∧
    (∀ (repoCreate : Order → Int × Option GoError) (order : Order) (id : Int),
      repoCreate order = (id, some ErrNotFound) → ErrNotFound.Is ErrNotFound = true →
      ∃ err2, Service.CreateOrder repoCreate order = (0, some err2) ∧
        err2.Is ErrNotFound = true) :=
  C17_wrap_preserves_cause "storage.pg.GetByUID.Order" ErrNotFound ErrNotFound

/-! ## The HTTP handlers -/

/-- C15 as stated fails: the path parameter 9223372036854775808 is a decimal
integer, yet the response is 400 and the repository is not called, because
`strconv.Atoi` rejects a value that does not fit in an `int`. -/
theorem C15_counterexample :
    decimalValue "9223372036854775808" = some 9223372036854775808 ∧
    Handler.GetOrderByID ⟨fun _ => (sampleOrder, none), fun _ => (1, none)⟩
        "9223372036854775808" =
      (⟨400, Body.error "Invalid order ID"⟩, []) := by
  decide

/-- C15 (amended): when the path parameter is not a decimal integer that fits
in an `int`, the response is 400 "Invalid order ID" and the repository is not
called; otherwise `GetByID` is called once with the parsed id and the
response is 200 with the Order when it returns no error, 404 "Order not
found" when its error is or wraps `ErrNotFound`, and 500 "Internal server
error" for every other error. -/
theorem C15_get_order_by_id (repo : OrderRepository) (idStr : String) :
    ((decimalValue idStr = none ∨
        ∃ v, decimalValue idStr = some v ∧ ¬ (-2 ^ 63 ≤ v ∧ v < 2 ^ 63)) →
      Handler.GetOrderByID repo idStr = (⟨400, Body.error "Invalid order ID"⟩, [])) ∧
    (∀ id : Int, decimalValue idStr = some id → -2 ^ 63 ≤ id ∧ id < 2 ^ 63 →
      (Handler.GetOrderByID repo idStr).2 = [RepoCall.getByID id] ∧
      ((repo.GetByID id).2 = none →
        (Handler.GetOrderByID repo idStr).1 = ⟨200, Body.order (repo.GetByID id).1⟩) ∧
      (∀ err, (repo.GetByID id).2 = some err → err.Is ErrNotFound = true →
        (Handler.GetOrderByID repo idStr).1 = ⟨404, Body.error "Order not found"⟩) ∧
      (∀ err, (repo.GetByID id).2 = some err → err.Is ErrNotFound = false →
        (Handler.GetOrderByID repo idStr).1 = ⟨500, Body.error "Internal server error"⟩)) := by
  constructor
  · intro h
    have hA : Atoi idStr = none := by
      unfold Atoi
      rcases h with h | ⟨v, hv, hr⟩
      · rw [h]
      · rw [hv]; simp only [hr, if_false]
    simp [Handler.GetOrderByID, hA]
  · intro id hv hr
    have hA : Atoi idStr = some id := by
      unfold Atoi
      rw [hv]
      simp only [hr, and_self, if_true]
    unfold Handler.GetOrderByID
    rw [hA]
    simp only
    rcases hrepo : repo.GetByID id with ⟨order, _ | err⟩
    · simp
    · by_cases his : err.Is ErrNotFound = true
      · simp [his]
      · simp [his]

/-- The statement of C15 (amended) for the path parameter 1 and a repository
that knows no order. -/
theorem C15_get_order_by_id_witness :
    (Handler.GetOrderByID ⟨fun _ => (Order.zero, some ErrNotFound), fun _ => (1, none)⟩
        "1").2 = [RepoCall.getByID 1] ∧
    (Handler.GetOrderByID ⟨fun _ => (Order.zero, some ErrNotFound), fun _ => (1, none)⟩
        "1").1 = ⟨404, Body.error "Order not found"⟩ :=
  ⟨((C15_get_order_by_id ⟨fun _ => (Order.zero, some ErrNotFound), fun _ => (1, none)⟩
      "1").2 1 (by decide) (by decide)).1,
   ((C15_get_order_by_id ⟨fun _ => (Order.zero, some ErrNotFound), fun _ => (1, none)⟩
      "1").2 1 (by decide) (by decide)).2.2.1 ErrNotFound rfl (by decide)⟩

/-- C16: when the body does not bind into an Order the response is 400
"Invalid input" and `Create` is not called; otherwise `Create` is called once
with the decoded Order and the response is 201 with the returned id under
`order_id` when it returns no error, and 500 "Failed to create order" when
it returns an error. -/
theorem C16_create_order (repo : OrderRepository) (bind : Bytes → Option Order)
    (body : Bytes) :
    (bind body = none →
      Handler.CreateOrder repo bind body = (⟨400, Body.error "Invalid input"⟩, [])) ∧
    (∀ order : Order, bind body = some order →
      (Handler.CreateOrder repo bind body).2 = [RepoCall.create order] ∧
      ((repo.Create order).2 = none →
        (Handler.CreateOrder repo bind body).1 = ⟨201, Body.orderId (repo.Create order).1⟩) ∧
      (∀ err, (repo.Create order).2 = some err →
        (Handler.CreateOrder repo bind body).1 =
          ⟨500, Body.error "Failed to create order"⟩)) := by
  constructor
  · intro h
    simp [Handler.CreateOrder, h]
  · intro order h
    unfold Handler.CreateOrder
    rw [h]
    simp only
    rcases hrepo : repo.Create order with ⟨id, _ | err⟩
    · simp
    · simp

/-- The statement of C16 for a body that binds to the sample order and a
repository that returns the id 1. -/
theorem C16_create_order_witness :
    (Handler.CreateOrder ⟨fun _ => (sampleOrder, none), fun _ => (1, none)⟩
        (fun _ => some sampleOrder) sampleBytes).2 = [RepoCall.create sampleOrder] ∧
    (Handler.CreateOrder ⟨fun _ => (sampleOrder, none), fun _ => (1, none)⟩
        (fun _ => some sampleOrder) sampleBytes).1 = ⟨201, Body.orderId 1⟩ :=
  ⟨((C16_create_order ⟨fun _ => (sampleOrder, none), fun _ => (1, none)⟩
      (fun _ => some sampleOrder) sampleBytes).2 sampleOrder rfl).1,
   ((C16_create_order ⟨fun _ => (sampleOrder, none), fun _ => (1, none)⟩
      (fun _ => some sampleOrder) sampleBytes).2 sampleOrder rfl).2.1 rfl⟩

/-! ## The ingestion coordinator -/

/-- After `close(kc.errChan)` the receive of the `select` can always proceed,
so the `default` case is never taken: what `Consume` returns after the
workers have finished is the first value held by `kc.errChan`, or nil when it
holds none, whatever `errs` and `ctx.Err()` are. -/
theorem aggregate_eq_head (sh : Shared) (ctxErr : Option GoError) :
    Consume.aggregate sh ctxErr = sh.errChan.head? := by
  unfold Consume.aggregate Chan.tryRecv Chan.close
  cases sh.errChan <;> rfl

theorem Consume_eq_head (cfg : KafkaConfig) (ps : List Partition) (ctxErr : Option GoError)
    (sh : Shared) (hrun : Consume.run cfg ps ⟨[], []⟩ = some sh) :
    Consume cfg (Except.ok ps) ctxErr = some sh.errChan.head? := by
  simp [Consume, hrun, aggregate_eq_head]

/-- The statement of `Consume_eq_head` on a partition that cannot be opened. -/
theorem Consume_eq_head_witness :
    Consume ⟨100000000, 1⟩ (Except.ok [unopenedPartition]) none =
      some (Shared.errChan
        ⟨[GoError.wrap "consume partition 0" (GoError.other "kafka: broker not available")],
         []⟩).head? :=
  Consume_eq_head ⟨100000000, 1⟩ [unopenedPartition] none _ (by decide)

/-- C13 (the code departs from it): with one partition that cannot be opened,
the failure is recorded in `errs` and `Consume` returns nil; with one
partition whose message exhausts its retries, the last error is recorded in
`errs` and `Consume` returns nil; with a transport error on one partition and
an open failure on another, `Consume` returns the transport error alone. -/
theorem C13_recorded_errors_dropped :
    (Consume.run ⟨100000000, 1⟩ [unopenedPartition] ⟨[], []⟩ =
        some ⟨[GoError.wrap "consume partition 0"
          (GoError.other "kafka: broker not available")], []⟩ ∧
      Consume ⟨100000000, 1⟩ (Except.ok [unopenedPartition]) none = some none) ∧
    (Consume.run ⟨100000000, 1⟩ [exhaustedPartition] ⟨[], []⟩ =
        some ⟨[GoError.other "connection refused"], []⟩ ∧
      Consume ⟨100000000, 1⟩ (Except.ok [exhaustedPartition]) none = some none) ∧
    Consume ⟨100000000, 1⟩ (Except.ok [transportErrorPartition, unopenedPartition]) none =
      some (some (GoError.wrap "partition consumer error"
        (GoError.other "kafka: broker down"))) := by
  decide

/-- C14 (the code departs from it): when the only worker ends on the
cancellation of the context and nothing was recorded, `Consume` returns nil
although `ctx.Err()` is `context.Canceled`; without cancellation it returns
nil as well. -/
theorem C14_cancellation_not_reported :
    (Consume.run ⟨100000000, 1⟩ [cancelledPartition] ⟨[], []⟩ = some ⟨[], []⟩ ∧
      Consume ⟨100000000, 1⟩ (Except.ok [cancelledPartition]) (some contextCanceled) =
        some none) ∧
    (Consume.run ⟨100000000, 1⟩ [quietPartition] ⟨[], []⟩ = some ⟨[], []⟩ ∧
      Consume ⟨100000000, 1⟩ (Except.ok [quietPartition]) none = some none) := by
  decide

/-! ## Orders returned together with an error -/

/-- C19 (the code departs from it): when the delivery query of `GetByID` fails
with a driver error, the Order returned with the error carries the header of
the order that was read; when the query of the first item fails, it carries
the header, the delivery and the payment. Neither is the empty Order. -/
theorem C19_partly_read_order_returned :
    (Postgres.GetByID storeWithSample emptyCache (readFaultAt 0 ReadStep.delivery) 1).2 =
      (Order.zero.setHeader (sampleOrder.header 1),
       some (Wrap "storage.pg.GetByUID.Delivery" (GoError.other "connection reset"))) ∧
    Order.zero.setHeader (sampleOrder.header 1) ≠ Order.zero ∧
    (Postgres.GetByID storeWithSample emptyCache (readFaultAt 0 (ReadStep.item 0)) 1).2 =
      ({ sampleOrder with Items := [] },
       some (Wrap "storage.pg.GetByUID.Items" (GoError.other "connection reset"))) ∧
    { sampleOrder with Items := [] } ≠ Order.zero := by
  decide

end L0
